import Mathlib

/-!
# CPU / memory usage sampling (win_pse, typeperf_shell_exec)

A shallow embedding of the Go sources

* `win_pse/win_pse_nopc.go`   (direct system calls: `getCPUTimes`, `calcPercentageDiff`,
  `getCPUPercentage`, `ProcUsage`),
* `win_pse/win_pse.go`        (performance counters: `getCounterArrayData`, `initCounters`,
  `ProcUsagePDH`),
* `typeperf_shell_exec.go`    (`parseResult`, `getStatsForProcess`, `procUsage`),

followed by the properties proved about them.

Conventions of the embedding.

* `int64` values are integers; every `int64` addition and subtraction of the source is
  followed by `wrap64`, the two's-complement wrap.
* `int` is 64 bits wide, as on amd64, where a conversion of a float outside the `int64`
  range (or of an infinity or a NaN) yields the smallest `int64`.
* In `win_pse`, `float64` results that the source obtains by a division are values of
  `F64`: an exact rational, or one of the IEEE special values `+Inf`, `-Inf`, `NaN`.
  Rounding to the nearest representable double is not modelled there, and zero is
  unsigned.
* In `typeperf_shell_exec.go`, the `float64` results of `strconv.ParseFloat` are values
  of `Go.Float64`: a finite double, given by its exact rational value, or `+Inf`, `-Inf`,
  `NaN`.  `Float64.ofRat` rounds an exact value to the nearest double, ties to even, and
  a numeric literal of type `Float64` denotes the double nearest to it.  Zero is
  unsigned.
* Global variables are fields of an explicit state record that every function takes and
  returns; values written through pointer parameters are returned.
* Operating-system calls are inputs: each function takes the results that the calls it
  makes would deliver.
* `fmt.Printf` diagnostics have no effect on any value and are left out.
-/

namespace Go

/-! ## Conversions shared by both programs -/

/-- The smallest `int64`, the result of an out-of-range float conversion on amd64. -/
def minInt64 : Int := -9223372036854775808

/-- Go conversion `int(f)` / `int64(f)` of a finite float with exact value `f`, as
compiled for amd64 (`int` is 64 bits wide): the fraction is discarded (truncation toward
zero); when the result does not fit in `int64` the conversion yields the smallest
`int64`. -/
def truncToInt (f : ℚ) : Int :=
  if -9223372036854775808 ≤ (if 0 ≤ f then ⌊f⌋ else ⌈f⌉) ∧
      (if 0 ≤ f then ⌊f⌋ else ⌈f⌉) < 9223372036854775808 then
    (if 0 ≤ f then ⌊f⌋ else ⌈f⌉)
  else minInt64

/-- A `float64` value: a finite value, given by its exact rational value, or one of the
IEEE special values.  Zero is unsigned. -/
inductive Float64 where
  | fin (q : ℚ)
  | posInf
  | negInf
  | nan
  deriving DecidableEq

/-- Rounding of a rational to the nearest integer, ties to the even one. -/
def roundHalfEven (x : ℚ) : Int :=
  if x - ⌊x⌋ < 1 / 2 then ⌊x⌋
  else if 1 / 2 < x - ⌊x⌋ then ⌊x⌋ + 1
  else if ⌊x⌋ % 2 = 0 then ⌊x⌋ else ⌊x⌋ + 1

/-- The `float64` nearest to a positive rational `q` (ties to even), exponent range
unbounded above: with `e = max ⌊log2 q⌋ (-1022)` the result is a multiple of
`2 ^ (e - 52)`, the spacing of the doubles around `q` (subnormal below `2 ^ (-1022)`). -/
def roundPos (q : ℚ) : ℚ :=
  (roundHalfEven (q / 2 ^ (max (Int.log 2 q) (-1022) - 52)) : ℚ) *
    2 ^ (max (Int.log 2 q) (-1022) - 52)

/-- Halfway between the largest finite `float64` and `2 ^ 1024`: magnitudes from here on
round to infinity. -/
def overflowThreshold : ℚ := 2 ^ 1024 - 2 ^ 970

namespace Float64

/-- IEEE round-to-nearest-even conversion of an exact value to `float64`. -/
def ofRat (q : ℚ) : Float64 :=
  if q = 0 then fin 0
  else if 0 < q then (if overflowThreshold ≤ q then posInf else fin (roundPos q))
  else (if overflowThreshold ≤ -q then negInf else fin (-roundPos (-q)))

/-- Go conversion `int(f)` / `int64(f)` on amd64; NaN and the infinities give the
smallest `int64`. -/
def toInt64 : Float64 → Int
  | fin q => truncToInt q
  | _ => minInt64

end Float64

instance (n : Nat) : OfNat Float64 n := ⟨Float64.ofRat (n : ℚ)⟩

instance : OfScientific Float64 :=
  ⟨fun m s e => Float64.ofRat (OfScientific.ofScientific m s e : ℚ)⟩

/-- The integer `t` is the integer part of `q`: `q` with its fraction discarded. -/
def IsIntegerPart (t : Int) (q : ℚ) : Prop :=
  (0 ≤ q → (t : ℚ) ≤ q ∧ q < (t : ℚ) + 1) ∧ (q < 0 → (t : ℚ) - 1 < q ∧ q ≤ (t : ℚ))

/-- The integer `t` is what the conversion `int(v)` / `int64(v)` of the float `v` gives
on amd64, stated without the conversion function: the integer part of a finite `v`
when that part lies in the `int64` range, the smallest `int64` in every other case. -/
def IsInt64Of (v : Float64) (t : Int) : Prop :=
  (∀ (q : ℚ) (p : Int), v = .fin q → IsIntegerPart p q →
    ((-9223372036854775808 ≤ p ∧ p < 9223372036854775808) → t = p) ∧
    (¬ (-9223372036854775808 ≤ p ∧ p < 9223372036854775808) → t = minInt64)) ∧
  ((∀ q : ℚ, v ≠ .fin q) → t = minInt64)

end Go

namespace WinPse

open Go

/-! ## Machine arithmetic -/

/-- Two's-complement wrap of an integer into the `int64` range `[-2^63, 2^63)`. -/
def wrap64 (x : Int) : Int :=
  (x + 9223372036854775808) % 18446744073709551616 - 9223372036854775808

/-- Go `a + b` on `int64`. -/
def add64 (a b : Int) : Int := wrap64 (a + b)

/-- Go `a - b` on `int64`. -/
def sub64 (a b : Int) : Int := wrap64 (a - b)

/-- The value is representable as an `int64`. -/
def IsInt64 (x : Int) : Prop := -9223372036854775808 ≤ x ∧ x < 9223372036854775808

instance (x : Int) : Decidable (IsInt64 x) := by unfold IsInt64; infer_instance

/-- A `float64`: an exact rational or an IEEE special value. -/
inductive F64 where
  | fin (q : ℚ)
  | posInf
  | negInf
  | nan
  deriving DecidableEq

namespace F64

/-- Go `float64(i)` for an `int64` `i`. -/
def ofInt64 (i : Int) : F64 := fin (i : ℚ)

/-- IEEE multiplication (rounding not modelled). -/
def mul : F64 → F64 → F64
  | nan, _ => nan
  | _, nan => nan
  | fin a, fin b => fin (a * b)
  | fin a, posInf => if a = 0 then nan else if 0 < a then posInf else negInf
  | fin a, negInf => if a = 0 then nan else if 0 < a then negInf else posInf
  | posInf, fin b => if b = 0 then nan else if 0 < b then posInf else negInf
  | negInf, fin b => if b = 0 then nan else if 0 < b then negInf else posInf
  | posInf, posInf => posInf
  | posInf, negInf => negInf
  | negInf, posInf => negInf
  | negInf, negInf => posInf

/-- IEEE division (rounding not modelled; a zero divisor is `+0`). -/
def div : F64 → F64 → F64
  | nan, _ => nan
  | _, nan => nan
  | fin a, fin b =>
    if b = 0 then (if a = 0 then nan else if 0 < a then posInf else negInf)
    else fin (a / b)
  | fin _, posInf => fin 0
  | fin _, negInf => fin 0
  | posInf, fin b => if 0 ≤ b then posInf else negInf
  | negInf, fin b => if 0 ≤ b then negInf else posInf
  | posInf, posInf => nan
  | posInf, negInf => nan
  | negInf, posInf => nan
  | negInf, negInf => nan

/-- IEEE subtraction (rounding not modelled). -/
def sub : F64 → F64 → F64
  | nan, _ => nan
  | _, nan => nan
  | fin a, fin b => fin (a - b)
  | fin _, posInf => negInf
  | fin _, negInf => posInf
  | posInf, fin _ => posInf
  | negInf, fin _ => negInf
  | posInf, posInf => nan
  | posInf, negInf => posInf
  | negInf, posInf => negInf
  | negInf, negInf => nan

end F64

/-! ## win_pse_nopc.go : data -/

/-- An error value returned by a system call or built by the program. -/
abbrev GoError := String

/-- Go `syscall.Filetime`: two `uint32` halves of a 64-bit tick count. -/
structure Filetime where
  LowDateTime : Nat
  HighDateTime : Nat
  deriving DecidableEq, Repr

/-- Go `systemCPUTime`. -/
structure systemCPUTime where
  idle : Int
  kernel : Int
  user : Int
  deriving DecidableEq, Repr

/-- Go `processCPUTime`. -/
structure processCPUTime where
  creation : Int
  exit : Int
  kernel : Int
  user : Int
  deriving DecidableEq, Repr

/-- The four times delivered by `GetProcessTimes`. -/
structure ProcessFiletimes where
  creation : Filetime
  exit : Filetime
  kernel : Filetime
  user : Filetime
  deriving DecidableEq, Repr

/-- The three times delivered by `GetSystemTimes`. -/
structure SystemFiletimes where
  idle : Filetime
  kernel : Filetime
  user : Filetime
  deriving DecidableEq, Repr

/-- What the operating system answers to the calls made by one `getCPUTimes` followed by
the clock read of `calcPercentageDiff2`. -/
structure TimesBackend where
  processTimes : Except GoError ProcessFiletimes
  systemTimes : Except GoError SystemFiletimes
  systemTimeAsFileTime : Filetime

/-- The package-level variables of `win_pse.go` and `win_pse_nopc.go` (one package). -/
structure Globals where
  initialSample : Bool
  prevCPU : ℚ
  prevRss : Int
  prevVss : Int
  lastSampleTime : Int
  lastPercentage : F64
  prevProcCPU : processCPUTime
  prevSysCPU : systemCPUTime
  prevCalcTime : Int

/-- The variables as the Go declarations initialise them. -/
def Globals.init : Globals where
  initialSample := true
  prevCPU := 0
  prevRss := 0
  prevVss := 0
  lastSampleTime := 0
  lastPercentage := F64.fin 0
  prevProcCPU := ⟨0, 0, 0, 0⟩
  prevSysCPU := ⟨0, 0, 0⟩
  prevCalcTime := 0

/-! ## win_pse_nopc.go : functions -/

/-- Go `fileTimeToInt64`: `int64(ft.HighDateTime)<<32 + int64(ft.LowDateTime)`. -/
def fileTimeToInt64 (ft : Filetime) : Int :=
  add64 (wrap64 ((ft.HighDateTime : Int) * 4294967296)) (ft.LowDateTime : Int)

/-- The `systemCPUTime` that `getCPUTimes` builds from the answer of `GetSystemTimes`. -/
def SystemFiletimes.toCPUTime (s : SystemFiletimes) : systemCPUTime :=
  { idle := fileTimeToInt64 s.idle, kernel := fileTimeToInt64 s.kernel,
    user := fileTimeToInt64 s.user }

/-- The `processCPUTime` that `getCPUTimes` builds from the answer of `GetProcessTimes`. -/
def ProcessFiletimes.toCPUTime (p : ProcessFiletimes) : processCPUTime :=
  { creation := fileTimeToInt64 p.creation, exit := fileTimeToInt64 p.exit,
    kernel := fileTimeToInt64 p.kernel, user := fileTimeToInt64 p.user }

/-- Go `getCPUTimes(sys, proc)`: the records behind both pointers are written only when
both system calls succeeded; the first failing call's error is returned. -/
def getCPUTimes (b : TimesBackend) (sys : systemCPUTime) (proc : processCPUTime) :
    Option GoError × systemCPUTime × processCPUTime :=
  match b.processTimes with
  | .error e => (some e, sys, proc)
  | .ok p =>
    match b.systemTimes with
    | .error e => (some e, sys, proc)
    | .ok s => (none, s.toCPUTime, p.toCPUTime)

/-- Go `calcPercentageDiff(sysTime, lastSysTime, procTime, lastProcTime)`. -/
def calcPercentageDiff (sysTime lastSysTime : systemCPUTime)
    (procTime lastProcTime : processCPUTime) : F64 :=
  let sKernelDelta := sub64 sysTime.kernel lastSysTime.kernel
  let sUserDelta := sub64 sysTime.user lastSysTime.user
  let pKernelDelta := sub64 procTime.kernel lastProcTime.kernel
  let pUserDelta := sub64 procTime.user lastProcTime.user
  let sysTotal := F64.ofInt64 (add64 sKernelDelta sUserDelta)
  let procTotal := F64.ofInt64 (add64 pKernelDelta pUserDelta)
  F64.div (F64.mul (F64.fin 100) procTotal) sysTotal

/-- Go `calcPercentageDiff2(lastProcTime, procTime)`; `currentTime` is the clock read and
the second component is the new `prevCalcTime`. -/
def calcPercentageDiff2 (prevCalcTime : Int) (currentTime : Int)
    (lastProcTime procTime : processCPUTime) : F64 × Int :=
  if prevCalcTime = 0 then (F64.fin 0, currentTime)
  else
    let prevUsageTime := F64.ofInt64 (add64 lastProcTime.user lastProcTime.kernel)
    let curUsageTime := F64.ofInt64 (add64 procTime.user procTime.kernel)
    (F64.div (F64.div (F64.sub curUsageTime prevUsageTime)
        (F64.ofInt64 (sub64 currentTime prevCalcTime))) (F64.fin 100),
     currentTime)

/-- Go `getCPUPercentage()`: returns `(percentage, err)` and the new globals. -/
def getCPUPercentage (g : Globals) (b : TimesBackend) : (F64 × Option GoError) × Globals :=
  if g.initialSample then
    -- the error of this first reading is not looked at
    let r := getCPUTimes b g.prevSysCPU g.prevProcCPU
    ((F64.fin 0, none),
     { g with prevSysCPU := r.2.1, prevProcCPU := r.2.2, initialSample := false })
  else
    match getCPUTimes b ⟨0, 0, 0⟩ ⟨0, 0, 0, 0⟩ with
    | (some err, _, _) => ((F64.fin (-1), some err), g)
    | (none, curSysCPU, curProcCPU) =>
      let rv := calcPercentageDiff curSysCPU g.prevSysCPU curProcCPU g.prevProcCPU
      let d := calcPercentageDiff2 g.prevCalcTime (fileTimeToInt64 b.systemTimeAsFileTime)
        g.prevProcCPU curProcCPU
      -- save previous samples
      ((rv, none),
       { g with
         prevCalcTime := d.2
         prevProcCPU :=
           { creation := curProcCPU.creation
             exit := curProcCPU.exit
             kernel := curProcCPU.kernel
             user := curProcCPU.kernel }
         prevSysCPU :=
           { idle := curSysCPU.idle
             kernel := curSysCPU.idle
             user := curSysCPU.user } })

/-- The two fields of `PROCESS_MEMORY_COUNTERS_EX` that `ProcUsage` reads. -/
structure MemCounters where
  WorkingSetSize : Nat
  PrivateUsage : Nat
  deriving DecidableEq, Repr

/-- What the operating system answers to the calls made by one `ProcUsage`.
`memInfo` carries the counters as the call left them (zero when it failed). -/
structure UsageBackend where
  currentProcess : Except GoError Unit
  memInfo : Option GoError × MemCounters
  times : TimesBackend

/-- The three values `ProcUsage` writes through its pointer parameters. -/
structure UsageOut where
  pcpu : F64
  rss : Int
  vss : Int
  deriving DecidableEq

/-- Go `ProcUsage(pcpu, rss, vss)`: returns the error result, the contents of the three
pointer targets, and the new globals. -/
def ProcUsage (g : Globals) (b : UsageBackend) (out : UsageOut) :
    Option GoError × UsageOut × Globals :=
  match b.currentProcess with
  | .error err => (some err, out, g)
  | .ok _ =>
    -- the result of getProcessMemoryInfo is not looked at
    let mem := b.memInfo.2
    let rss := Int.tdiv (wrap64 mem.WorkingSetSize) 1024
    let vss := Int.tdiv (wrap64 mem.PrivateUsage) 1024
    let r := getCPUPercentage g b.times
    -- `*pcpu, err = getCPUPercentage()` and then `return nil`
    (none, { pcpu := r.1.1, rss := rss, vss := vss }, r.2)

/-! ## win_pse.go -/

/-- Go `maxQuerySize`: the length of the static array `counterResults`. -/
def maxQuerySize : Nat := 128

/-- Go `PDH_MORE_DATA`. -/
def PDH_MORE_DATA : Nat := 0x800007D2

/-- The four performance counters of the query. -/
inductive Counter where
  | pid
  | cpu
  | rss
  | vss
  deriving DecidableEq, Repr

/-- A call into `pdh.dll`. -/
inductive PdhCall where
  | openQuery
  | addCounter (c : Counter)
  | collectQueryData
  | getFormattedCounterArray (c : Counter)
  deriving DecidableEq, Repr

/-- How a call ends: it returns `nil`, returns an error, or the program aborts with a
run-time panic (an index out of range). -/
inductive Ending where
  | ok
  | error (err : GoError)
  | panic
  deriving DecidableEq, Repr

/-- One answer of `PdhGetFormattedCounterArrayW`: the return code, the item count it
stored in `*lpdwBufferCount`, and the `DoubleValue` fields of the item buffer after the
call. -/
structure ArrayAnswer where
  ret : Nat
  bufCount : Nat
  items : List ℚ

/-- What `pdh.dll` answers to the calls made by one `ProcUsagePDH`. -/
structure PdhBackend where
  openQuery : Nat
  addCounter : Counter → Nat
  collectOnInit : Nat
  collect : Nat
  arrayFirst : Counter → ArrayAnswer
  arraySecond : Counter → ArrayAnswer

/-- Go `getCounterArrayData(counter)`: the ending, the returned slice and the calls
made. -/
def getCounterArrayData (b : PdhBackend) (counter : Counter) :
    Ending × List ℚ × List PdhCall :=
  let first := b.arrayFirst counter
  if first.ret = PDH_MORE_DATA then
    -- this function always needs to be called twice
    let second := b.arraySecond counter
    let calls := [PdhCall.getFormattedCounterArray counter,
      PdhCall.getFormattedCounterArray counter]
    if second.ret = 0 then
      if second.bufCount ≤ maxQuerySize then
        (.ok, (List.range second.bufCount).map fun i => second.items.getD i 0, calls)
      else (.panic, [], calls)
    else (.error ("getCounterArrayData: " ++ toString second.ret), [], calls)
  else if first.ret ≠ 0 then
    (.error ("getCounterArrayData: " ++ toString first.ret), [],
     [PdhCall.getFormattedCounterArray counter])
  else (.ok, [], [PdhCall.getFormattedCounterArray counter])

/-- Go `initCounters()`: the returned error and the calls made. -/
def initCounters (b : PdhBackend) : Option GoError × List PdhCall :=
  if b.openQuery ≠ 0 then
    (some ("pdhOpenQuery failed. " ++ toString b.openQuery), [.openQuery])
  else if b.addCounter .pid ≠ 0 then
    (some ("pdhAddCounter failed. " ++ toString (b.addCounter .pid)),
     [.openQuery, .addCounter .pid])
  else if b.addCounter .cpu ≠ 0 then
    (some ("pdhAddCounter failed. " ++ toString (b.addCounter .cpu)),
     [.openQuery, .addCounter .pid, .addCounter .cpu])
  else if b.addCounter .rss ≠ 0 then
    (some ("pdhAddCounter failed. " ++ toString (b.addCounter .rss)),
     [.openQuery, .addCounter .pid, .addCounter .cpu, .addCounter .rss])
  else if b.addCounter .vss ≠ 0 then
    (some ("pdhAddCounter failed. " ++ toString (b.addCounter .vss)),
     [.openQuery, .addCounter .pid, .addCounter .cpu, .addCounter .rss, .addCounter .vss])
  else if b.collectOnInit ≠ 0 then
    (some ("pdhCollectQueryData failed. " ++ toString b.collectOnInit),
     [.openQuery, .addCounter .pid, .addCounter .cpu, .addCounter .rss, .addCounter .vss,
      .collectQueryData])
  else
    (none,
     [.openQuery, .addCounter .pid, .addCounter .cpu, .addCounter .rss, .addCounter .vss,
      .collectQueryData])

/-- The three values `ProcUsagePDH` writes through its pointer parameters. -/
structure Reading where
  pcpu : ℚ
  rss : Int
  vss : Int
  deriving DecidableEq

/-- Result of one `ProcUsagePDH` call. -/
structure PdhResult where
  /-- The returned error, or `ok` for `nil`. -/
  ending : Ending
  /-- The targets of `pcpu`, `rss`, `vss` on exit. -/
  out : Reading
  /-- The globals on exit. -/
  globals : Globals
  /-- The calls into `pdh.dll`, in order. -/
  calls : List PdhCall

/-- The pid that `ProcUsagePDH` looks for: `syscall.Getpid()` is overwritten by the
constant (`pid = 2480`). -/
def searchedPid : Int := 2480

/-- The loop of `ProcUsagePDH` over `pidAry`: the first index whose value, converted
to `int`, is the searched pid. -/
def findPid (pidAry : List ℚ) : Option Nat :=
  pidAry.findIdx? fun v => truncToInt v = searchedPid

/-- The part of `ProcUsagePDH` after the throttle check: refresh, read the four counter
arrays, pick the entry of the searched pid.  The deferred function stores `exitNow`,
its reading of the clock, in `lastSampleTime` on every way out. -/
def sample (g : Globals) (b : PdhBackend) (exitNow : Int) (out : Reading)
    (calls : List PdhCall) : PdhResult :=
  let g := { g with lastSampleTime := exitNow }
  let calls := calls ++ [.collectQueryData]
  if b.collect ≠ 0 then
    ⟨.error ("pdhCollectQueryData failed. " ++ toString b.collect), out, g, calls⟩
  else
    match getCounterArrayData b .pid with
    | (.error e, _, c) => ⟨.error e, out, g, calls ++ c⟩
    | (.panic, _, c) => ⟨.panic, out, g, calls ++ c⟩
    | (.ok, pidAry, c) =>
    let calls := calls ++ c
    match getCounterArrayData b .cpu with
    | (.error e, _, c) => ⟨.error e, out, g, calls ++ c⟩
    | (.panic, _, c) => ⟨.panic, out, g, calls ++ c⟩
    | (.ok, cpuAry, c) =>
    let calls := calls ++ c
    match getCounterArrayData b .rss with
    | (.error e, _, c) => ⟨.error e, out, g, calls ++ c⟩
    | (.panic, _, c) => ⟨.panic, out, g, calls ++ c⟩
    | (.ok, rssAry, c) =>
    let calls := calls ++ c
    match getCounterArrayData b .vss with
    | (.error e, _, c) => ⟨.error e, out, g, calls ++ c⟩
    | (.panic, _, c) => ⟨.panic, out, g, calls ++ c⟩
    | (.ok, vssAry, c) =>
    let calls := calls ++ c
    match findPid pidAry with
    | none => ⟨.error "Could not find pid in performance counter results.", out, g, calls⟩
    | some idx =>
      -- assign values from the performance counters
      match cpuAry.get? idx with
      | none => ⟨.panic, out, g, calls⟩
      | some cpu =>
        let out := { out with pcpu := cpu }
        match rssAry.get? idx with
        | none => ⟨.panic, out, g, calls⟩
        | some rss =>
          let out := { out with rss := truncToInt rss }
          match vssAry.get? idx with
          | none => ⟨.panic, out, g, calls⟩
          | some vss =>
            let out := { out with vss := truncToInt vss }
            -- save off cache values
            ⟨.ok, out,
             { g with prevCPU := out.pcpu, prevRss := out.rss, prevVss := out.vss }, calls⟩

/-- Go `2 * time.Second`, in nanoseconds. -/
def minRefreshInterval : Int := 2000000000

/-- Go `ProcUsagePDH(pcpu, rss, vss)`.  Times are in nanoseconds: `now` is the clock as
`time.Since` reads it, `exitNow` the clock as the deferred function reads it; `out`
holds the pointer targets on entry. -/
def ProcUsagePDH (g : Globals) (b : PdhBackend) (now exitNow : Int) (out : Reading) :
    PdhResult :=
  if g.initialSample then
    -- first time through, initialize counters
    match initCounters b with
    | (some err, calls) => ⟨.error err, out, g, calls⟩
    | (none, calls) => sample { g with initialSample := false } b exitNow out calls
  else if now - g.lastSampleTime < minRefreshInterval then
    -- only refresh every two seconds
    ⟨.ok, ⟨g.prevCPU, g.prevRss, g.prevVss⟩, g, []⟩
  else sample g b exitNow out []

/-- A backend on which initialisation and the refresh succeed and every counter array
holds the one given value. -/
def pdhBackendOf (pid cpu rss vss : ℚ) : PdhBackend where
  openQuery := 0
  addCounter := fun _ => 0
  collectOnInit := 0
  collect := 0
  arrayFirst := fun _ => ⟨PDH_MORE_DATA, 1, []⟩
  arraySecond := fun c =>
    match c with
    | .pid => ⟨0, 1, [pid]⟩
    | .cpu => ⟨0, 1, [cpu]⟩
    | .rss => ⟨0, 1, [rss]⟩
    | .vss => ⟨0, 1, [vss]⟩

/-- A backend on which initialisation succeeds and the refresh `PdhCollectQueryData`
fails with code 5. -/
def pdhBackendCollectFails : PdhBackend where
  openQuery := 0
  addCounter := fun _ => 0
  collectOnInit := 0
  collect := 5
  arrayFirst := fun _ => ⟨0, 0, []⟩
  arraySecond := fun _ => ⟨0, 0, []⟩

/-! ## Deltas as the specification words them -/

/-- System tick delta in the specification's words,
`(current.kernel + current.user) - (previous.kernel + previous.user)`, in `int64`
arithmetic. -/
def sysDelta (current previous : systemCPUTime) : Int :=
  sub64 (add64 current.kernel current.user) (add64 previous.kernel previous.user)

/-- Process tick delta in the specification's words,
`(current.kernel + current.user) - (previous.kernel + previous.user)`, in `int64`
arithmetic. -/
def procDelta (current previous : processCPUTime) : Int :=
  sub64 (add64 current.kernel current.user) (add64 previous.kernel previous.user)

/-- A `Filetime` holding a small tick count. -/
def ticks (n : Nat) : Filetime := ⟨n, 0⟩

/-- A successful backend answer with the given process (kernel, user) and system
(idle, kernel, user) tick counts. -/
def backendOf (pk pu si sk su : Nat) : TimesBackend where
  processTimes := .ok ⟨ticks 0, ticks 0, ticks pk, ticks pu⟩
  systemTimes := .ok ⟨ticks si, ticks sk, ticks su⟩
  systemTimeAsFileTime := ticks 0

end WinPse

namespace Typeperf

open Go

/-! ## typeperf_shell_exec.go : strings and numbers -/

/-- A Go string, as the list of its characters. -/
abbrev GoString := List Char

/-- Go `strings.Contains(s, substr)`. -/
def stringsContains : GoString → GoString → Bool
  | [], substr => substr.isEmpty
  | c :: rest, substr => substr.isPrefixOf (c :: rest) || stringsContains rest substr

/-- Worker of `stringsSplit`: `skip` counts the characters of a separator occurrence
still to be passed over. -/
def splitAux (sep : GoString) : GoString → Nat → List GoString
  | [], _ => [[]]
  | _ :: rest, skip + 1 => splitAux sep rest skip
  | c :: rest, 0 =>
    if sep.isPrefixOf (c :: rest) then [] :: splitAux sep rest (sep.length - 1)
    else
      match splitAux sep rest 0 with
      | piece :: pieces => (c :: piece) :: pieces
      | [] => [[c]]

/-- Go `strings.Split(s, sep)` for a non-empty separator: the pieces between the
non-overlapping occurrences of `sep`, found from the left. -/
def stringsSplit (s sep : GoString) : List GoString := splitAux sep s 0

/-- Go `strings.Trim(s, cutset)`: `s` without the leading and trailing characters that
occur in `cutset`. -/
def stringsTrim (s cutset : GoString) : GoString :=
  ((s.dropWhile fun c => cutset.contains c).reverse.dropWhile fun c =>
    cutset.contains c).reverse

/-- Value of a decimal digit character. -/
def digitVal (c : Char) : Nat := c.toNat - 48

/-- The character is one of `a`..`f`, `A`..`F`. -/
def isHexLetter (c : Char) : Bool := 97 ≤ c.toLower.toNat && c.toLower.toNat ≤ 102

/-- Value of a hexadecimal digit letter. -/
def hexLetterVal (c : Char) : Nat := c.toLower.toNat - 87

/-- The two failures of `strconv.ParseFloat`: `ErrSyntax` and `ErrRange`. -/
inductive NumError where
  | malformed
  | outOfRange
  deriving DecidableEq, Repr

/-- Go `special(s)` of package `strconv`, for a string that must be consumed whole:
`inf` and `infinity` with an optional sign, `nan` without one, in any letter case. -/
def special (s : GoString) : Option Float64 :=
  if s.map Char.toLower = "nan".toList then some .nan
  else if s.map Char.toLower = "inf".toList ∨ s.map Char.toLower = "+inf".toList ∨
      s.map Char.toLower = "infinity".toList ∨ s.map Char.toLower = "+infinity".toList then
    some .posInf
  else if s.map Char.toLower = "-inf".toList ∨ s.map Char.toLower = "-infinity".toList then
    some .negInf
  else none

/-- What the digit loop of `readFloat` has read: the digits as one number in the base,
the count of digits after the point, and the two flags of the loop. -/
structure Mantissa where
  digits : Nat
  nfrac : Nat
  sawdot : Bool
  sawdigits : Bool
  deriving DecidableEq, Repr

/-- One more digit of value `d` in base `base`. -/
def Mantissa.push (m : Mantissa) (base d : Nat) : Mantissa :=
  { m with
    digits := m.digits * base + d
    nfrac := if m.sawdot then m.nfrac + 1 else m.nfrac
    sawdigits := true }

/-- The digit loop of `readFloat`: underscores are passed over, one point is accepted,
digits (and hexadecimal letters after a `0x` prefix) are accumulated; the loop stops at
any other character and returns the characters not read. -/
def mantissaLoop (hex : Bool) : Mantissa → GoString → Mantissa × GoString
  | m, [] => (m, [])
  | m, c :: rest =>
    if c = '_' then mantissaLoop hex m rest
    else if c = '.' then
      if m.sawdot then (m, c :: rest) else mantissaLoop hex { m with sawdot := true } rest
    else if c.isDigit then mantissaLoop hex (m.push (if hex then 16 else 10) (digitVal c)) rest
    else if hex && isHexLetter c then mantissaLoop hex (m.push 16 (hexLetterVal c)) rest
    else (m, c :: rest)

/-- The exponent digit loop of `readFloat`, which must end the string: digits and
underscores; the accumulated exponent stops growing once it has reached 10000. -/
def exponentLoop : Nat → GoString → Option Nat
  | e, [] => some e
  | e, c :: rest =>
    if c = '_' then exponentLoop e rest
    else if c.isDigit then exponentLoop (if e < 10000 then e * 10 + digitVal c else e) rest
    else none

/-- The exponent of `readFloat` after its exponent letter: an optional sign and at
least one digit. -/
def readExponent (s : GoString) : Option Int :=
  match s with
  | [] => none
  | '+' :: rest =>
    if (rest.head?.map Char.isDigit) = some true then
      (exponentLoop 0 rest).map fun e => (e : Int)
    else none
  | '-' :: rest =>
    if (rest.head?.map Char.isDigit) = some true then
      (exponentLoop 0 rest).map fun e => -(e : Int)
    else none
  | c :: rest =>
    if c.isDigit then (exponentLoop 0 (c :: rest)).map fun e => (e : Int) else none

/-- State of `underscoreOK`: the kind of the last character seen. -/
inductive Saw where
  | start
  | digit
  | underscore
  | other
  deriving DecidableEq, Repr

/-- The loop of `underscoreOK` over the number proper. -/
def underscoreLoop (hex : Bool) : Saw → GoString → Bool
  | saw, [] => saw ≠ .underscore
  | saw, c :: rest =>
    if c.isDigit || (hex && isHexLetter c) then underscoreLoop hex .digit rest
    else if c = '_' then
      if saw ≠ .digit then false else underscoreLoop hex .underscore rest
    else if saw = .underscore then false
    else underscoreLoop hex .other rest

/-- The string without its optional leading sign. -/
def stripSign (s : GoString) : GoString :=
  match s with
  | '-' :: rest => rest
  | '+' :: rest => rest
  | _ => s

/-- Go `underscoreOK(s)` of package `strconv`: an underscore must stand between digits,
or between a base prefix and a digit. -/
def underscoreOK (s : GoString) : Bool :=
  match stripSign s with
  | '0' :: p :: rest =>
    if p.toLower = 'b' ∨ p.toLower = 'o' ∨ p.toLower = 'x' then
      underscoreLoop (p.toLower = 'x') .digit rest
    else underscoreLoop false .start (stripSign s)
  | _ => underscoreLoop false .start (stripSign s)

/-- What `readFloat` has read of a well-formed number. -/
structure Parsed where
  neg : Bool
  hex : Bool
  digits : Nat
  nfrac : Nat
  exp : Int
  deriving DecidableEq, Repr

/-- The test of `readFloat` for a hexadecimal number: `0x` or `0X` with at least one
character after it. -/
def hasHexPrefix (body : GoString) : Bool :=
  match body with
  | '0' :: x :: _ :: _ => x.toLower = 'x'
  | _ => false

/-- The digits and the exponent of `readFloat`, which must end the string: the digit
loop, then either nothing (decimal numbers only) or the exponent letter (`e` for
decimal, `p` for hexadecimal numbers) with its exponent. -/
def readDigitsAndExponent (hex : Bool) (s : GoString) : Option (Mantissa × Int) :=
  if (mantissaLoop hex ⟨0, 0, false, false⟩ s).1.sawdigits = false then none
  else
    match (mantissaLoop hex ⟨0, 0, false, false⟩ s).2 with
    | [] => if hex then none else some ((mantissaLoop hex ⟨0, 0, false, false⟩ s).1, 0)
    | c :: rest =>
      if c.toLower = (if hex then 'p' else 'e') then
        (readExponent rest).map fun e => ((mantissaLoop hex ⟨0, 0, false, false⟩ s).1, e)
      else none

/-- Go `readFloat(s)` of package `strconv`, for a string that must be consumed whole.
The digits are kept exactly (the source keeps 19 of them and a truncation flag, from
which it still rounds the exact value correctly). -/
def readFloat (s : GoString) : Option Parsed :=
  match readDigitsAndExponent (hasHexPrefix (stripSign s))
      (if hasHexPrefix (stripSign s) then (stripSign s).drop 2 else stripSign s) with
  | none => none
  | some me =>
    if s.contains '_' && !underscoreOK s then none
    else some ⟨s.head? = some '-', hasHexPrefix (stripSign s), me.1.digits, me.1.nfrac, me.2⟩

/-- The exact value of a number read by `readFloat`. -/
def Parsed.value (p : Parsed) : ℚ :=
  (if p.neg then -1 else 1) * (p.digits : ℚ) *
    (if p.hex then (2 : ℚ) ^ (p.exp - 4 * (p.nfrac : Int))
     else (10 : ℚ) ^ (p.exp - (p.nfrac : Int)))

/-- Go library function `strconv.ParseFloat(s, 64)`: the value and the error.  A
well-formed number gives the `float64` nearest to its exact value; beyond the range of
`float64` it gives an infinity together with `ErrRange`; a malformed string gives 0
together with `ErrSyntax`. -/
def parseFloat (s : GoString) : Float64 × Option NumError :=
  match special s with
  | some f => (f, none)
  | none =>
    match readFloat s with
    | none => (.fin 0, some .malformed)
    | some p =>
      if overflowThreshold ≤ |p.value| then (Float64.ofRat p.value, some .outOfRange)
      else (Float64.ofRat p.value, none)

/-! ## typeperf_shell_exec.go : functions -/

/-- How a call ends: it returns `nil`, returns an error with a message, or the program
aborts with a run-time panic. -/
inductive Outcome where
  | ok
  | error (msg : GoString)
  | panic
  deriving DecidableEq

/-- The variables that `parseResult` and `getStatsForProcess` write through their
pointer parameters. -/
structure Stats where
  pid : Int
  pcpu : Float64
  rss : Int
  vss : Int
  deriving DecidableEq

/-- The double quote, the cutset of the `strings.Trim` calls. -/
def quoteCutset : GoString := [Char.ofNat 34]

/-- Go `parseResult(line, pid, pcpu, rss, vss)`; `st` holds the pointer targets on
entry, the second component holds them on exit. -/
def parseResult (line : GoString) (st : Stats) : Outcome × Stats :=
  let values := stringsSplit line ",".toList
  if values.length < 4 then (.error "Invalid result.".toList, st)
  else
    -- values[0] is date and time; indices 1 to 3 exist by the length check
    match parseFloat (stringsTrim (values.getD 1 []) quoteCutset) with
    | (_, some _) => (.error ("Unable to parse pid: ".toList ++ values.getD 1 []), st)
    | (fval, none) =>
      let st := { st with pid := fval.toInt64 }
      -- `*pcpu, err = strconv.ParseFloat(...)` stores the value also when err is set
      match parseFloat (stringsTrim (values.getD 2 []) quoteCutset) with
      | (pcpu, some _) =>
        (.error ("Unable to parse percent cpu: ".toList ++ values.getD 2 []),
         { st with pcpu := pcpu })
      | (pcpu, none) =>
        let st := { st with pcpu := pcpu }
        match parseFloat (stringsTrim (values.getD 3 []) quoteCutset) with
        | (_, some _) =>
          (.error ("Unable to parse private bytes: ".toList ++ values.getD 3 []), st)
        | (fval, none) =>
          let st := { st with rss := fval.toInt64 }
          -- values[4] is indexed without a further length check
          match values.get? 4 with
          | none => (.panic, st)
          | some v4 =>
            match parseFloat (stringsTrim v4 quoteCutset) with
            | (_, some _) => (.error ("Unable to parse virtual bytes: ".toList ++ v4), st)
            | (fval, none) => (.ok, { st with vss := fval.toInt64 })

/-- What running `typeperf` delivers: its standard output and, when the command did
not run or exited with a failure status, the error of `exec.Command(...).Output()`. -/
structure CmdResult where
  out : GoString
  err : Option GoString

/-- Go `getStatsForProcess(instName, pcpu, rss, vss, pid)`, given the answer `r` of the
`typeperf` command for `instName`. -/
def getStatsForProcess (r : CmdResult) (st : Stats) : Outcome × Stats :=
  match r.err with
  | some err =>
    -- the command ran, but the image instance was not found: a pid of -1
    if stringsContains r.out "The data is not valid".toList then (.ok, { st with pid := -1 })
    else (.error ("typeperf failed: ".toList ++ err), st)
  | none =>
    let results := stringsSplit r.out "\r\n".toList
    if results.length < 3 then (.error "invalid result".toList, st)
    else parseResult (results.getD 2 []) st

/-- Go `fmt.Sprintf("gnatsd#%d", i)`. -/
def candidateName (i : Nat) : GoString := "gnatsd#".toList ++ (Nat.repr i).toList

/-- Result of one `procUsage` call. -/
structure ProcUsageResult where
  /-- The returned error, or `ok` for `nil`. -/
  outcome : Outcome
  /-- The targets of `pcpu`, `rss`, `vss` and the local `ppid` on exit. -/
  stats : Stats
  /-- The global `imageName` on exit. -/
  imageName : GoString
  /-- The instance names given to `getStatsForProcess`, in call order. -/
  queries : List GoString
  deriving DecidableEq

/-- Record one more query in front of a result. -/
def ProcUsageResult.after (name : GoString) (r : ProcUsageResult) : ProcUsageResult :=
  { r with queries := name :: r.queries }

/-- Record several more queries in front of a result. -/
def ProcUsageResult.afterAll (names : List GoString) (r : ProcUsageResult) :
    ProcUsageResult :=
  { r with queries := names ++ r.queries }

/-- The statements of `procUsage` after its `for` loop. -/
def afterLoop (st : Stats) (imageName : GoString) : ProcUsageResult :=
  if st.pid = -1 then
    ⟨.error "unable to find process counters".toList, st, imageName, []⟩
  else ⟨.ok, st, imageName, []⟩

/-- The loop `for i := 0; ppid != procPid; i++` of `procUsage`, entered at index `i`.
The loop has no bound of its own: `fuel` is the number of iterations the model may
run, and `none` means that the loop is still running after that many.  (The wrap of
the `int` counter after `2^63` iterations is not modelled.) -/
def resolveLoop (typeperf : GoString → CmdResult) (procPid : Int) :
    Nat → Nat → Stats → GoString → Option ProcUsageResult
  | 0, _, st, imageName =>
    if st.pid = procPid then some (afterLoop st imageName) else none
  | fuel + 1, i, st, imageName =>
    if st.pid = procPid then some (afterLoop st imageName)
    else
      let name := candidateName i
      match getStatsForProcess (typeperf name) st with
      | (.error msg, st) => some ⟨.error msg, st, imageName, [name]⟩
      | (.panic, st) => some ⟨.panic, st, imageName, [name]⟩
      | (.ok, st) =>
        -- bail out if an image name is not found
        if st.pid < 0 then
          some ⟨.error "unable to find process image".toList, st, imageName, [name]⟩
        else if st.pid = procPid then some ((afterLoop st name).after name)
        else (resolveLoop typeperf procPid fuel (i + 1) st imageName).map (.after name)

/-- Go `procUsage(pcpu, rss, vss)`: `typeperf` answers the command for each instance
name, `procPid` is `os.Getpid()`, `imageName` the cached global, `pcpu`, `rss`, `vss`
the pointer targets on entry. -/
def procUsage (typeperf : GoString → CmdResult) (procPid : Int) (fuel : Nat)
    (imageName : GoString) (pcpu : Float64) (rss vss : Int) : Option ProcUsageResult :=
  let st : Stats := { pid := -1, pcpu := pcpu, rss := rss, vss := vss }
  if imageName ≠ [] then
    -- the cached image name is tried first
    match getStatsForProcess (typeperf imageName) st with
    | (.error msg, st) => some ⟨.error msg, st, imageName, [imageName]⟩
    | (.panic, st) => some ⟨.panic, st, imageName, [imageName]⟩
    | (.ok, st) =>
      if st.pid = procPid then some ⟨.ok, st, imageName, [imageName]⟩
      else (resolveLoop typeperf procPid fuel 0 st imageName).map (.after imageName)
  else resolveLoop typeperf procPid fuel 0 st imageName

/-! ## Vocabulary of the properties -/

/-- The characters that occur in strings `strconv.ParseFloat` reads as numbers. -/
def numChar (c : Char) : Bool :=
  c.isDigit || isHexLetter c || c == '_' || c == '.' || c == '+' || c == '-' ||
    c.toLower == 'x' || c.toLower == 'p'

/-- Value of a string of decimal digits, read as a natural number. -/
def digitsVal (ds : GoString) : Nat := ds.foldl (fun n c => n * 10 + (c.toNat - 48)) 0

/-- The string of the decimal numeral with an optional minus sign, the integer digits
`ip`, a point and the fraction digits `fp`. -/
def numeral (neg : Bool) (ip fp : GoString) : GoString :=
  (if neg then ['-'] else []) ++ (ip ++ '.' :: fp)

/-- The strings `ip` and `fp` are the two digit strings of a numeral: decimal digits
only, and at least one of them. -/
def IsNumeral (ip fp : GoString) : Prop :=
  (∀ c ∈ ip, c.isDigit = true) ∧ (∀ c ∈ fp, c.isDigit = true) ∧ ¬ (ip = [] ∧ fp = [])

/-- The exact value of a numeral: its integer digits plus its fraction digits scaled by
their count, negated under a minus sign. -/
def numeralValue (neg : Bool) (ip fp : GoString) : ℚ :=
  (if neg then -1 else 1) * ((digitsVal ip : ℚ) + (digitsVal fp : ℚ) / 10 ^ fp.length)

/-- The error of `procUsage` for a candidate that is not present. -/
def errNoImage : GoString := "unable to find process image".toList

/-- A field in double quotes, as `typeperf` prints it. -/
def quoted (field : GoString) : GoString := quoteCutset ++ field ++ quoteCutset

/-- The query for an instance reports a pid that exists and is not `procPid`. -/
def ReportsOther (r : CmdResult) (procPid : Int) : Prop :=
  ∀ st, (getStatsForProcess r st).1 = .ok ∧ 0 ≤ (getStatsForProcess r st).2.pid ∧
    (getStatsForProcess r st).2.pid ≠ procPid

/-- The query for an instance succeeds and delivers the readings `rd`. -/
def ReportsReading (r : CmdResult) (rd : Stats) : Prop :=
  ∀ st, getStatsForProcess r st = (.ok, rd)

/-- The query for an instance reports the sentinel of an instance that is not present:
no error, pid -1, the other pointer targets untouched. -/
def NotPresent (r : CmdResult) : Prop :=
  ∀ st, getStatsForProcess r st = (.ok, { st with pid := -1 })

/-- The candidate names with indices `i`, `i + 1`, ..., `i + n - 1`. -/
def candidatesFrom (i n : Nat) : List GoString :=
  (List.range n).map fun j => candidateName (i + j)

/-- The answer of `typeperf` when the instance exists: an empty line, a header line and
the data line with the given pid, pcpu, private bytes and virtual bytes numerals. -/
def answerOf (pid pcpu rss vss : String) : CmdResult where
  out := "\r\n\"(PDH-CSV 4.0)\",\"ID Process\",\"% Processor Time\"\r\n".toList ++
    (quoted "04/17/2016 15.38.00.016".toList ++ ',' :: quoted pid.toList ++
      ',' :: quoted pcpu.toList ++ ',' :: quoted rss.toList ++ ',' :: quoted vss.toList) ++
    "\r\nExiting, please wait...\r\n".toList
  err := none

/-- The answer of `typeperf` when the instance does not exist. -/
def answerNotPresent : CmdResult where
  out := "Error: No valid counters.\r\nThe data is not valid.\r\n".toList
  err := some "exit status 1".toList

/-- The namespace `gnatsd#0 -> pid 11`, `gnatsd#1 -> pid 42`, every other instance not
present. -/
def namespace1142 (name : GoString) : CmdResult :=
  if name = "gnatsd#0".toList then answerOf "11.000000" "0.500000" "100.000000" "200.000000"
  else if name = "gnatsd#1".toList then
    answerOf "42.000000" "2.500000" "300.000000" "400.000000"
  else answerNotPresent

/-- The namespace `gnatsd#1 -> pid 42`, every other instance (`gnatsd#0` among them)
not present. -/
def namespaceGap42 (name : GoString) : CmdResult :=
  if name = "gnatsd#1".toList then answerOf "42.000000" "2.500000" "300.000000" "400.000000"
  else answerNotPresent

/-- A namespace in which every instance exists with pid 11. -/
def namespaceAll11 (_ : GoString) : CmdResult :=
  answerOf "11.000000" "0.500000" "100.000000" "200.000000"

end Typeperf

/-! # Properties -/

namespace Go

theorem roundHalfEven_of_near (x : ℚ) (m : Int) (h : |x - (m : ℚ)| < 1 / 2) :
    roundHalfEven x = m := by
  have h1 := (abs_lt.mp h).1
  have h2 := (abs_lt.mp h).2
  rcases le_or_lt (m : ℚ) x with hle | hlt
  · have hf : ⌊x⌋ = m := Int.floor_eq_iff.mpr ⟨hle, by linarith⟩
    unfold roundHalfEven
    rw [hf]
    have : x - (m : ℚ) < 1 / 2 := h2
    simp only [this, if_true]
  · have hf : ⌊x⌋ = m - 1 := Int.floor_eq_iff.mpr ⟨by push_cast; linarith, by push_cast; linarith⟩
    unfold roundHalfEven
    rw [hf]
    have hn : ¬ (x - ((m - 1 : Int) : ℚ) < 1 / 2) := by push_cast; linarith
    have hp : 1 / 2 < x - ((m - 1 : Int) : ℚ) := by push_cast; linarith
    simp only [hn, hp, if_false, if_true]
    omega

theorem log_two_eq (q : ℚ) (e : Int) (hq : 0 < q) (hlo : (2 : ℚ) ^ e ≤ q)
    (hhi : q < (2 : ℚ) ^ (e + 1)) : Int.log 2 q = e := by
  have h1 : e ≤ Int.log 2 q := (Int.zpow_le_iff_le_log (by norm_num) hq).mp (by simpa using hlo)
  have h2 : Int.log 2 q < e + 1 := (Int.lt_zpow_iff_log_lt (by norm_num) hq).mp (by simpa using hhi)
  omega

/-- Certificate for one rounding: `q` lies in the binade of exponent `e` and `m` is the
integer nearest to `q / 2 ^ (e - 52)`. -/
theorem roundPos_eq (q : ℚ) (e m : Int) (hq : 0 < q) (hlo : (2 : ℚ) ^ e ≤ q)
    (hhi : q < (2 : ℚ) ^ (e + 1)) (hmin : -1022 ≤ e)
    (hm : |q / 2 ^ (e - 52) - (m : ℚ)| < 1 / 2) :
    roundPos q = (m : ℚ) * 2 ^ (e - 52) := by
  unfold roundPos
  rw [log_two_eq q e hq hlo hhi, max_eq_left hmin, roundHalfEven_of_near _ m hm]

theorem truncToInt_of_isIntegerPart (q : ℚ) (t : Int) (h : IsIntegerPart t q)
    (hlo : -9223372036854775808 ≤ t) (hhi : t < 9223372036854775808) : truncToInt q = t := by
  have ht : (if 0 ≤ q then ⌊q⌋ else ⌈q⌉) = t := by
    by_cases h0 : 0 ≤ q
    · simp only [h0, if_true]
      exact Int.floor_eq_iff.mpr (h.1 h0)
    · simp only [h0, if_false]
      have := h.2 (not_le.mp h0)
      exact Int.ceil_eq_iff.mpr this
  unfold truncToInt
  rw [ht]
  simp [hlo, hhi]

theorem truncToInt_natCast (n : Nat) (h : n < 9223372036854775808) :
    truncToInt (n : ℚ) = n := by
  apply truncToInt_of_isIntegerPart
  · constructor
    · intro _
      constructor
      · simp
      · simp
    · intro h0
      have : (0 : ℚ) ≤ (n : ℚ) := Nat.cast_nonneg n
      exact absurd h0 (not_lt.mpr this)
  · omega
  · omega

theorem ofRat_of_pos (q : ℚ) (hq : 0 < q) (hlt : q < overflowThreshold) :
    Float64.ofRat q = .fin (roundPos q) := by
  unfold Float64.ofRat
  rw [if_neg (ne_of_gt hq), if_pos hq, if_neg (not_le.mpr hlt)]

theorem ofRat_of_neg (q : ℚ) (hq : q < 0) (hlt : -q < overflowThreshold) :
    Float64.ofRat q = .fin (-roundPos (-q)) := by
  unfold Float64.ofRat
  rw [if_neg (ne_of_lt hq), if_neg (not_lt.mpr (le_of_lt hq)), if_neg (not_le.mpr hlt)]

theorem overflowThreshold_gt : (9007199254740992 : ℚ) < overflowThreshold := by
  unfold overflowThreshold
  norm_num

/-- Natural numbers below `2 ^ 53` are `float64` values: rounding leaves them as they
are. -/
theorem roundPos_natCast (n : Nat) (h0 : 0 < n) (h : n < 9007199254740992) :
    roundPos (n : ℚ) = n := by
  have hn : n ≠ 0 := Nat.pos_iff_ne_zero.mp h0
  have hlo : 2 ^ Nat.log 2 n ≤ n := Nat.pow_log_le_self 2 hn
  have hhi : n < 2 ^ (Nat.log 2 n + 1) := Nat.lt_pow_succ_log_self (by norm_num) n
  have he : Nat.log 2 n < 53 := by
    have : 2 ^ Nat.log 2 n < 2 ^ 53 := lt_of_le_of_lt hlo (by norm_num; exact h)
    exact (Nat.pow_lt_pow_iff_right (by norm_num)).mp this
  have hq : (0 : ℚ) < (n : ℚ) := by exact_mod_cast h0
  have hpow : ((2 : ℚ) ^ ((Nat.log 2 n : ℤ) - 52)) * (2 : ℚ) ^ (52 - Nat.log 2 n) = 1 := by
    rw [← zpow_natCast, ← zpow_add₀ (by norm_num : (2 : ℚ) ≠ 0)]
    have : ((Nat.log 2 n : ℤ) - 52) + ((52 - Nat.log 2 n : ℕ) : ℤ) = 0 := by omega
    rw [this, zpow_zero]
  have hpos : (0 : ℚ) < (2 : ℚ) ^ ((Nat.log 2 n : ℤ) - 52) := by positivity
  have hscaled : (n : ℚ) / (2 : ℚ) ^ ((Nat.log 2 n : ℤ) - 52) =
      ((n * 2 ^ (52 - Nat.log 2 n) : ℕ) : ℤ) := by
    rw [div_eq_iff (ne_of_gt hpos)]
    push_cast
    rw [mul_assoc, mul_comm ((2 : ℚ) ^ (52 - Nat.log 2 n)), hpow, mul_one]
  have := roundPos_eq (n : ℚ) (Nat.log 2 n) ((n * 2 ^ (52 - Nat.log 2 n) : ℕ) : ℤ) hq
    (by rw [zpow_natCast]; exact_mod_cast hlo)
    (by
      have : ((Nat.log 2 n : ℤ) + 1) = ((Nat.log 2 n + 1 : ℕ) : ℤ) := by push_cast; ring
      rw [this, zpow_natCast]
      exact_mod_cast hhi)
    (by omega)
    (by rw [hscaled]; simp)
  rw [this]
  push_cast
  rw [mul_assoc, mul_comm ((2 : ℚ) ^ (52 - Nat.log 2 n)), hpow, mul_one]

theorem ofRat_natCast (n : Nat) (h : n < 9007199254740992) :
    Float64.ofRat (n : ℚ) = .fin n := by
  rcases Nat.eq_zero_or_pos n with h0 | h0
  · subst h0
    simp [Float64.ofRat]
  · have hq : (0 : ℚ) < (n : ℚ) := by exact_mod_cast h0
    have hlt : (n : ℚ) < overflowThreshold := by
      have : (n : ℚ) < 9007199254740992 := by exact_mod_cast h
      exact lt_trans this overflowThreshold_gt
    rw [ofRat_of_pos _ hq hlt, roundPos_natCast n h0 h]

/-- The conversion to `int64` of the `float64` of a natural number below `2 ^ 53`. -/
theorem toInt64_natCast (n : Nat) (h : n < 9007199254740992) :
    (Float64.ofRat (n : ℚ)).toInt64 = n := by
  rw [ofRat_natCast n h]
  exact truncToInt_natCast n (by omega)

/-- The integer part of a rational is unique. -/
theorem isIntegerPart_unique (q : ℚ) (s t : Int) (hs : IsIntegerPart s q)
    (ht : IsIntegerPart t q) : s = t := by
  rcases le_or_lt 0 q with h | h
  · have a := hs.1 h
    have b := ht.1 h
    have h1 : (s : ℚ) < (t : ℚ) + 1 := lt_of_le_of_lt a.1 b.2
    have h2 : (t : ℚ) < (s : ℚ) + 1 := lt_of_le_of_lt b.1 a.2
    have h3 : s < t + 1 := by exact_mod_cast h1
    have h4 : t < s + 1 := by exact_mod_cast h2
    omega
  · have a := hs.2 h
    have b := ht.2 h
    have h1 : (s : ℚ) - 1 < (t : ℚ) := lt_of_lt_of_le a.1 b.2
    have h2 : (t : ℚ) - 1 < (s : ℚ) := lt_of_lt_of_le b.1 a.2
    have h3 : s - 1 < t := by exact_mod_cast h1
    have h4 : t - 1 < s := by exact_mod_cast h2
    omega

/-- Truncation toward zero gives the integer part. -/
theorem isIntegerPart_trunc (q : ℚ) : IsIntegerPart (if 0 ≤ q then ⌊q⌋ else ⌈q⌉) q := by
  constructor
  · intro h
    rw [if_pos h]
    exact ⟨Int.floor_le q, Int.lt_floor_add_one q⟩
  · intro h
    rw [if_neg (not_le.mpr h)]
    exact ⟨by linarith [Int.ceil_lt_add_one q], Int.le_ceil q⟩

/-- The conversion function meets its specification. -/
theorem isInt64Of_toInt64 (v : Float64) : IsInt64Of v v.toInt64 := by
  constructor
  · intro q p hv hp
    subst hv
    have hpt : p = (if 0 ≤ q then ⌊q⌋ else ⌈q⌉) :=
      isIntegerPart_unique q _ _ hp (isIntegerPart_trunc q)
    constructor
    · intro hr
      show truncToInt q = p
      unfold truncToInt
      rw [← hpt, if_pos hr]
    · intro hr
      show truncToInt q = minInt64
      unfold truncToInt
      rw [← hpt, if_neg hr]
  · intro h
    cases v with
    | fin q => exact absurd rfl (h q)
    | posInf => rfl
    | negInf => rfl
    | nan => rfl

/-- What the specification of the conversion determines for a finite value whose integer
part lies in the `int64` range. -/
theorem eq_of_isInt64Of (q : ℚ) (t p : Int) (h : IsInt64Of (.fin q) t)
    (hp : IsIntegerPart p q) (hlo : -9223372036854775808 ≤ p)
    (hhi : p < 9223372036854775808) : t = p :=
  ((h.1 q p rfl hp).1 ⟨hlo, hhi⟩)

/-- Certificate for one conversion of a positive rational to `float64`. -/
theorem ofRat_eq_of_cert (q r : ℚ) (e m : Int) (hq : 0 < q) (hlt : q < overflowThreshold)
    (hlo : (2 : ℚ) ^ e ≤ q) (hhi : q < (2 : ℚ) ^ (e + 1)) (hmin : -1022 ≤ e)
    (hm : |q / 2 ^ (e - 52) - (m : ℚ)| < 1 / 2) (hr : (m : ℚ) * 2 ^ (e - 52) = r) :
    Float64.ofRat q = .fin r := by
  rw [ofRat_of_pos q hq hlt, roundPos_eq q e m hq hlo hhi hmin hm, hr]

theorem ofRat_neg_eq_of_cert (q r : ℚ) (e m : Int) (hq : 0 < q)
    (hlt : q < overflowThreshold) (hlo : (2 : ℚ) ^ e ≤ q) (hhi : q < (2 : ℚ) ^ (e + 1))
    (hmin : -1022 ≤ e) (hm : |q / 2 ^ (e - 52) - (m : ℚ)| < 1 / 2)
    (hr : (m : ℚ) * 2 ^ (e - 52) = r) :
    Float64.ofRat (-q) = .fin (-r) := by
  rw [ofRat_of_neg (-q) (by linarith) (by rw [neg_neg]; exact hlt), neg_neg,
    roundPos_eq q e m hq hlo hhi hmin hm, hr]

theorem ofRat_of_overflow (q : ℚ) (hq : overflowThreshold ≤ q) :
    Float64.ofRat q = .posInf := by
  have hpos : (0 : ℚ) < overflowThreshold := by
    unfold overflowThreshold
    norm_num
  have h0 : 0 < q := lt_of_lt_of_le hpos hq
  unfold Float64.ofRat
  rw [if_neg (ne_of_gt h0), if_pos h0, if_pos hq]

theorem truncToInt_natCast_big (n : Nat) (h : 9223372036854775808 ≤ n) :
    truncToInt (n : ℚ) = minInt64 := by
  have h0 : (0 : ℚ) ≤ (n : ℚ) := Nat.cast_nonneg n
  unfold truncToInt
  simp only [h0, if_true, Int.floor_natCast]
  rw [if_neg]
  omega

theorem eq_of_isInt64Of_natCast (n : Nat) (t : Int) (h : IsInt64Of (Float64.ofRat (n : ℚ)) t)
    (hn : n < 9007199254740992) : t = n := by
  rw [ofRat_natCast n hn] at h
  refine eq_of_isInt64Of (n : ℚ) t n h ⟨fun _ => ⟨?_, ?_⟩, fun h0 => ?_⟩ (by omega) (by omega)
  · simp
  · simp
  · exact absurd h0 (not_lt.mpr (Nat.cast_nonneg n))

end Go

namespace WinPse

open Go

/-! ## Arithmetic lemmas -/

theorem wrap64_of_isInt64 {x : Int} (h : IsInt64 x) : wrap64 x = x := by
  unfold IsInt64 at h
  unfold wrap64
  omega

theorem wrap64_isInt64 (x : Int) : IsInt64 (wrap64 x) := by
  unfold IsInt64 wrap64
  omega

theorem add64_sub64_regroup (a b c d : Int) :
    add64 (sub64 a b) (sub64 c d) = sub64 (add64 a c) (add64 b d) := by
  unfold add64 sub64 wrap64
  omega

theorem sysDelta_eq_of_isInt64 (c p : systemCPUTime)
    (h : IsInt64 ((c.kernel + c.user) - (p.kernel + p.user))) :
    sysDelta c p = (c.kernel + c.user) - (p.kernel + p.user) := by
  unfold IsInt64 at h
  unfold sysDelta add64 sub64 wrap64
  omega

theorem procDelta_eq_of_isInt64 (c p : processCPUTime)
    (h : IsInt64 ((c.kernel + c.user) - (p.kernel + p.user))) :
    procDelta c p = (c.kernel + c.user) - (p.kernel + p.user) := by
  unfold IsInt64 at h
  unfold procDelta add64 sub64 wrap64
  omega

theorem fileTimeToInt64_ticks (n : Nat) (h : n < 4294967296) :
    fileTimeToInt64 (ticks n) = n := by
  unfold fileTimeToInt64 ticks add64 wrap64
  simp only
  omega

/-- The value `calcPercentageDiff` computes, in terms of the two deltas. -/
theorem calcPercentageDiff_eq (c p : systemCPUTime) (pc pp : processCPUTime) :
    calcPercentageDiff c p pc pp =
      F64.div (F64.fin (100 * (procDelta pc pp : ℚ))) (F64.fin (sysDelta c p : ℚ)) := by
  unfold calcPercentageDiff sysDelta procDelta
  simp only [add64_sub64_regroup, F64.ofInt64, F64.mul]

/-! ## calcPercentageDiff -/

/-- With a positive system delta the division is an ordinary quotient. -/
theorem calcPercentageDiff_quotient (current previous : systemCPUTime)
    (procCurrent procPrevious : processCPUTime) (h : 0 < sysDelta current previous) :
    calcPercentageDiff current previous procCurrent procPrevious =
      F64.fin (100 * (procDelta procCurrent procPrevious : ℚ) /
        (sysDelta current previous : ℚ)) := by
  rw [calcPercentageDiff_eq]
  have hne : (sysDelta current previous : ℚ) ≠ 0 := by
    have : (0 : ℚ) < (sysDelta current previous : ℚ) := by exact_mod_cast h
    exact ne_of_gt this
  simp [F64.div, hne]

/-- C1: whenever the system tick delta is positive, `calcPercentageDiff` returns exactly
`100 * procDelta / sysDelta` as a rational, the deltas being those of the specification,
`(current.kernel + current.user) - (previous.kernel + previous.user)`, on the `int64`
tick counts; each delta is the plain integer difference whenever that difference is
representable in `int64`. -/
theorem calcPercentageDiff_of_sysDelta_pos (current previous : systemCPUTime)
    (procCurrent procPrevious : processCPUTime) (h : 0 < sysDelta current previous) :
    calcPercentageDiff current previous procCurrent procPrevious =
        F64.fin (100 * (procDelta procCurrent procPrevious : ℚ) /
          (sysDelta current previous : ℚ)) ∧
      (IsInt64 ((current.kernel + current.user) - (previous.kernel + previous.user)) →
        sysDelta current previous =
          (current.kernel + current.user) - (previous.kernel + previous.user)) ∧
      (IsInt64 ((procCurrent.kernel + procCurrent.user) -
          (procPrevious.kernel + procPrevious.user)) →
        procDelta procCurrent procPrevious =
          (procCurrent.kernel + procCurrent.user) -
            (procPrevious.kernel + procPrevious.user)) :=
  ⟨calcPercentageDiff_quotient current previous procCurrent procPrevious h,
    sysDelta_eq_of_isInt64 _ _, procDelta_eq_of_isInt64 _ _⟩

/-- Witness of C1: system ticks advance by 200 while the process uses 100 of them, and the
result is 50 percent. -/
theorem calcPercentageDiff_of_sysDelta_pos_witness :
    0 < sysDelta ⟨100, 100, 100⟩ ⟨0, 0, 0⟩ ∧
      calcPercentageDiff ⟨100, 100, 100⟩ ⟨0, 0, 0⟩ ⟨0, 0, 50, 50⟩ ⟨0, 0, 0, 0⟩ =
        F64.fin 50 := by
  have h : 0 < sysDelta ⟨100, 100, 100⟩ ⟨0, 0, 0⟩ := by decide
  refine ⟨h, ?_⟩
  have e := (calcPercentageDiff_of_sysDelta_pos ⟨100, 100, 100⟩ ⟨0, 0, 0⟩ ⟨0, 0, 50, 50⟩
    ⟨0, 0, 0, 0⟩ h).1
  have hs : sysDelta ⟨100, 100, 100⟩ ⟨0, 0, 0⟩ = 200 := by decide
  have hp : procDelta ⟨0, 0, 50, 50⟩ ⟨0, 0, 0, 0⟩ = 100 := by decide
  rw [e, hs, hp]
  norm_num

/-! ## getCPUPercentage -/

theorem getCPUPercentage_initial (g : Globals) (b : TimesBackend) (h : g.initialSample = true) :
    getCPUPercentage g b =
      ((F64.fin 0, none),
       { g with
         prevSysCPU := (getCPUTimes b g.prevSysCPU g.prevProcCPU).2.1
         prevProcCPU := (getCPUTimes b g.prevSysCPU g.prevProcCPU).2.2
         initialSample := false }) := by
  simp [getCPUPercentage, h]

theorem getCPUTimes_ok (p : ProcessFiletimes) (s : SystemFiletimes) (t : Filetime)
    (sys : systemCPUTime) (proc : processCPUTime) :
    getCPUTimes ⟨.ok p, .ok s, t⟩ sys proc = (none, s.toCPUTime, p.toCPUTime) := rfl

/-- A later call (`initialSample` false) whose two system calls succeeded. -/
theorem getCPUPercentage_later (g : Globals) (p : ProcessFiletimes) (s : SystemFiletimes)
    (t : Filetime) (h : g.initialSample = false) :
    getCPUPercentage g ⟨.ok p, .ok s, t⟩ =
      ((calcPercentageDiff s.toCPUTime g.prevSysCPU p.toCPUTime g.prevProcCPU, none),
       { g with
         prevCalcTime := (calcPercentageDiff2 g.prevCalcTime (fileTimeToInt64 t)
           g.prevProcCPU p.toCPUTime).2
         prevProcCPU :=
           { creation := p.toCPUTime.creation
             exit := p.toCPUTime.exit
             kernel := p.toCPUTime.kernel
             user := p.toCPUTime.kernel }
         prevSysCPU :=
           { idle := s.toCPUTime.idle
             kernel := s.toCPUTime.idle
             user := s.toCPUTime.user } }) := by
  simp [getCPUPercentage, h, getCPUTimes_ok]

/-- C2: in a later call that read process ticks (kernel 1, user 2) and system ticks
(idle 3, kernel 4, user 5), the stored previous process user ticks are 1 (the kernel
ticks) and the stored previous system kernel ticks are 3 (the idle ticks): the stored
snapshot is not the current one. -/
theorem getCPUPercentage_saves_wrong_fields :
    getCPUTimes (backendOf 1 2 3 4 5) ⟨0, 0, 0⟩ ⟨0, 0, 0, 0⟩ =
      (none, ⟨3, 4, 5⟩, ⟨0, 0, 1, 2⟩) ∧
    (getCPUPercentage { Globals.init with initialSample := false }
        (backendOf 1 2 3 4 5)).2.prevProcCPU = ⟨0, 0, 1, 1⟩ ∧
    (getCPUPercentage { Globals.init with initialSample := false }
        (backendOf 1 2 3 4 5)).2.prevSysCPU = ⟨3, 3, 5⟩ := by
  refine ⟨by decide, ?_, ?_⟩
  · rw [backendOf, getCPUPercentage_later _ _ _ _ rfl]
    decide
  · rw [backendOf, getCPUPercentage_later _ _ _ _ rfl]
    decide

theorem sysDelta_backendOf :
    sysDelta (SystemFiletimes.toCPUTime ⟨ticks 100, ticks 100, ticks 100⟩) ⟨100, 100, 100⟩ = 0 := by
  decide

/-- C3, counterexample: after a baseline call on an all-zero snapshot, a call on process
ticks (50, 50) and system ticks (100, 100, 100) returns 50 percent and stores exactly that
snapshot; the next call reads the same ticks again, so the system tick delta is 0, and
it returns NaN, not the 50 percent computed before. -/
theorem getCPUPercentage_zero_delta_not_previous :
    (getCPUPercentage (getCPUPercentage Globals.init (backendOf 0 0 0 0 0)).2
        (backendOf 50 50 100 100 100)).1 = (F64.fin 50, none) ∧
    sysDelta (SystemFiletimes.toCPUTime ⟨ticks 100, ticks 100, ticks 100⟩)
        (getCPUPercentage (getCPUPercentage Globals.init (backendOf 0 0 0 0 0)).2
          (backendOf 50 50 100 100 100)).2.prevSysCPU ≤ 0 ∧
    (getCPUPercentage
        (getCPUPercentage (getCPUPercentage Globals.init (backendOf 0 0 0 0 0)).2
          (backendOf 50 50 100 100 100)).2
        (backendOf 50 50 100 100 100)).1 = (F64.nan, none) ∧
    (getCPUPercentage
        (getCPUPercentage (getCPUPercentage Globals.init (backendOf 0 0 0 0 0)).2
          (backendOf 50 50 100 100 100)).2
        (backendOf 50 50 100 100 100)).1.1 ≠
      (getCPUPercentage (getCPUPercentage Globals.init (backendOf 0 0 0 0 0)).2
        (backendOf 50 50 100 100 100)).1.1 := by
  have e1 : getCPUPercentage Globals.init (backendOf 0 0 0 0 0) =
      ((F64.fin 0, none), { Globals.init with initialSample := false }) := by
    rw [getCPUPercentage_initial _ _ rfl]
    rfl
  have h2 : sysDelta (SystemFiletimes.toCPUTime ⟨ticks 100, ticks 100, ticks 100⟩) ⟨0, 0, 0⟩
      = 200 := by decide
  have p2 : procDelta (ProcessFiletimes.toCPUTime ⟨ticks 0, ticks 0, ticks 50, ticks 50⟩)
      ⟨0, 0, 0, 0⟩ = 100 := by decide
  have p3 : procDelta (ProcessFiletimes.toCPUTime ⟨ticks 0, ticks 0, ticks 50, ticks 50⟩)
      ⟨0, 0, 50, 50⟩ = 0 := by decide
  have c2 : calcPercentageDiff (SystemFiletimes.toCPUTime ⟨ticks 100, ticks 100, ticks 100⟩)
      ⟨0, 0, 0⟩ (ProcessFiletimes.toCPUTime ⟨ticks 0, ticks 0, ticks 50, ticks 50⟩)
      ⟨0, 0, 0, 0⟩ = F64.fin 50 := by
    rw [calcPercentageDiff_eq, h2, p2]
    simp only [F64.div]
    norm_num
  have c3 : calcPercentageDiff (SystemFiletimes.toCPUTime ⟨ticks 100, ticks 100, ticks 100⟩)
      ⟨100, 100, 100⟩ (ProcessFiletimes.toCPUTime ⟨ticks 0, ticks 0, ticks 50, ticks 50⟩)
      ⟨0, 0, 50, 50⟩ = F64.nan := by
    rw [calcPercentageDiff_eq, sysDelta_backendOf, p3]
    simp [F64.div]
  have e2 : getCPUPercentage { Globals.init with initialSample := false }
      (backendOf 50 50 100 100 100) =
      ((F64.fin 50, none),
       { Globals.init with
         initialSample := false
         prevProcCPU := ⟨0, 0, 50, 50⟩
         prevSysCPU := ⟨100, 100, 100⟩ }) := by
    rw [backendOf, getCPUPercentage_later _ _ _ _ rfl]
    refine Prod.ext ?_ ?_
    · exact Prod.ext c2 rfl
    · rfl
  have e3 : (getCPUPercentage
      { Globals.init with
        initialSample := false
        prevProcCPU := ⟨0, 0, 50, 50⟩
        prevSysCPU := ⟨100, 100, 100⟩ }
      (backendOf 50 50 100 100 100)).1 = (F64.nan, none) := by
    rw [backendOf, getCPUPercentage_later _ _ _ _ rfl]
    exact Prod.ext c3 rfl
  rw [e1, e2, e3]
  refine ⟨rfl, ?_, rfl, ?_⟩
  · exact le_of_eq sysDelta_backendOf
  · simp

/-- C3, amended: in a later call whose system tick delta against the stored previous
snapshot is zero or negative, `getCPUPercentage` reports no error and returns the result
of the division it performs all the same: the quotient `100 * procDelta / sysDelta` for a
negative delta, and for a zero delta NaN, +Inf or -Inf as the process delta is zero,
positive or negative. -/
theorem getCPUPercentage_of_sysDelta_nonpos (g : Globals) (p : ProcessFiletimes)
    (s : SystemFiletimes) (t : Filetime) (hi : g.initialSample = false)
    (h : sysDelta s.toCPUTime g.prevSysCPU ≤ 0) :
    (getCPUPercentage g ⟨.ok p, .ok s, t⟩).1 =
      (if sysDelta s.toCPUTime g.prevSysCPU < 0 then
          F64.fin (100 * (procDelta p.toCPUTime g.prevProcCPU : ℚ) /
            (sysDelta s.toCPUTime g.prevSysCPU : ℚ))
        else if procDelta p.toCPUTime g.prevProcCPU = 0 then F64.nan
        else if 0 < procDelta p.toCPUTime g.prevProcCPU then F64.posInf
        else F64.negInf,
       none) := by
  rw [getCPUPercentage_later g p s t hi, calcPercentageDiff_eq]
  refine Prod.ext ?_ rfl
  simp only [F64.div]
  by_cases hz : sysDelta s.toCPUTime g.prevSysCPU < 0
  · have hq : (sysDelta s.toCPUTime g.prevSysCPU : ℚ) ≠ 0 := by
      have : sysDelta s.toCPUTime g.prevSysCPU ≠ 0 := ne_of_lt hz
      exact_mod_cast this
    simp [hz, hq]
  · have hz0 : sysDelta s.toCPUTime g.prevSysCPU = 0 := le_antisymm h (not_lt.mp hz)
    simp only [hz0, lt_self_iff_false, Int.cast_zero, if_true, if_false]
    by_cases hp : procDelta p.toCPUTime g.prevProcCPU = 0
    · simp [hp]
    · have hq : (100 * (procDelta p.toCPUTime g.prevProcCPU : ℚ)) ≠ 0 := by
        have : (procDelta p.toCPUTime g.prevProcCPU : ℚ) ≠ 0 := by exact_mod_cast hp
        simpa using this
      have hpos : (0 < 100 * (procDelta p.toCPUTime g.prevProcCPU : ℚ)) ↔
          0 < procDelta p.toCPUTime g.prevProcCPU := by
        constructor
        · intro h1
          have : (0 : ℚ) < (procDelta p.toCPUTime g.prevProcCPU : ℚ) := by linarith
          exact_mod_cast this
        · intro h1
          have : (0 : ℚ) < (procDelta p.toCPUTime g.prevProcCPU : ℚ) := by exact_mod_cast h1
          linarith
      simp only [hq, hp, if_false, hpos]

/-- Witness of the amended C3: previous system ticks (100, 100, 100) and process ticks
(50, 50), current system ticks (100, 90, 100) and process ticks (50, 60): the system
delta is -10, the process delta 10, and the call returns -100 percent without error. -/
theorem getCPUPercentage_of_sysDelta_nonpos_witness :
    sysDelta (SystemFiletimes.toCPUTime ⟨ticks 100, ticks 90, ticks 100⟩) ⟨100, 100, 100⟩ ≤ 0 ∧
    (getCPUPercentage
        { Globals.init with
          initialSample := false
          prevProcCPU := ⟨0, 0, 50, 50⟩
          prevSysCPU := ⟨100, 100, 100⟩ }
        ⟨.ok ⟨ticks 0, ticks 0, ticks 50, ticks 60⟩,
         .ok ⟨ticks 100, ticks 90, ticks 100⟩, ticks 0⟩).1 = (F64.fin (-100), none) := by
  have hs : sysDelta (SystemFiletimes.toCPUTime ⟨ticks 100, ticks 90, ticks 100⟩)
      ⟨100, 100, 100⟩ = -10 := by decide
  have hp : procDelta (ProcessFiletimes.toCPUTime ⟨ticks 0, ticks 0, ticks 50, ticks 60⟩)
      ⟨0, 0, 50, 50⟩ = 10 := by decide
  refine ⟨by rw [hs]; decide, ?_⟩
  rw [getCPUPercentage_of_sysDelta_nonpos
    { Globals.init with
      initialSample := false
      prevProcCPU := ⟨0, 0, 50, 50⟩
      prevSysCPU := ⟨100, 100, 100⟩ }
    ⟨ticks 0, ticks 0, ticks 50, ticks 60⟩ ⟨ticks 100, ticks 90, ticks 100⟩ (ticks 0) rfl
    (by rw [hs]; decide)]
  simp only [hs, hp]
  norm_num

/-- C7: from the initial state the first call of `getCPUPercentage` returns 0 with no
error whatever the system calls answer, and when they delivered a snapshot it is stored
as the previous snapshot; a second call on any snapshot returns, with no error, the value
`calcPercentageDiff` computes from that snapshot against the stored baseline, which is
`100 * procDelta / sysDelta` whenever the system delta is positive. -/
theorem getCPUPercentage_first_then_second (b : TimesBackend) (p1 p2 : ProcessFiletimes)
    (s1 s2 : SystemFiletimes) (t1 t2 : Filetime) :
    (getCPUPercentage Globals.init b).1 = (F64.fin 0, none) ∧
    (getCPUPercentage Globals.init ⟨.ok p1, .ok s1, t1⟩).2.initialSample = false ∧
    (getCPUPercentage Globals.init ⟨.ok p1, .ok s1, t1⟩).2.prevSysCPU = s1.toCPUTime ∧
    (getCPUPercentage Globals.init ⟨.ok p1, .ok s1, t1⟩).2.prevProcCPU = p1.toCPUTime ∧
    (getCPUPercentage (getCPUPercentage Globals.init ⟨.ok p1, .ok s1, t1⟩).2
        ⟨.ok p2, .ok s2, t2⟩).1 =
      (calcPercentageDiff s2.toCPUTime s1.toCPUTime p2.toCPUTime p1.toCPUTime, none) ∧
    (0 < sysDelta s2.toCPUTime s1.toCPUTime →
      (getCPUPercentage (getCPUPercentage Globals.init ⟨.ok p1, .ok s1, t1⟩).2
          ⟨.ok p2, .ok s2, t2⟩).1 =
        (F64.fin (100 * (procDelta p2.toCPUTime p1.toCPUTime : ℚ) /
          (sysDelta s2.toCPUTime s1.toCPUTime : ℚ)), none)) := by
  have e1 : getCPUPercentage Globals.init ⟨.ok p1, .ok s1, t1⟩ =
      ((F64.fin 0, none),
       { Globals.init with
         prevSysCPU := s1.toCPUTime
         prevProcCPU := p1.toCPUTime
         initialSample := false }) := by
    rw [getCPUPercentage_initial _ _ rfl, getCPUTimes_ok]
  have e2 : (getCPUPercentage (getCPUPercentage Globals.init ⟨.ok p1, .ok s1, t1⟩).2
        ⟨.ok p2, .ok s2, t2⟩).1 =
      (calcPercentageDiff s2.toCPUTime s1.toCPUTime p2.toCPUTime p1.toCPUTime, none) := by
    rw [e1, getCPUPercentage_later _ _ _ _ rfl]
  refine ⟨?_, ?_, ?_, ?_, e2, ?_⟩
  · rw [getCPUPercentage_initial _ _ rfl]
  · rw [e1]
  · rw [e1]
  · rw [e1]
  · intro h
    rw [e2, calcPercentageDiff_quotient _ _ _ _ h]

/-! ## ProcUsage -/

/-- C9: in a later call in which `GetProcessTimes` fails with `"access denied"` and
reading the memory counters fails with `"bad handle"`, `getCPUPercentage` does return
`(-1, "access denied")`, but `ProcUsage` returns no error, together with the reading
`pcpu = -1`, `rss = 0`, `vss = 0`. -/
theorem ProcUsage_swallows_errors :
    (getCPUPercentage { Globals.init with initialSample := false }
        ⟨.error "access denied", .ok ⟨ticks 0, ticks 0, ticks 0⟩, ticks 0⟩).1 =
      (F64.fin (-1), some "access denied") ∧
    (ProcUsage { Globals.init with initialSample := false }
        ⟨.ok (), (some "bad handle", ⟨0, 0⟩),
         ⟨.error "access denied", .ok ⟨ticks 0, ticks 0, ticks 0⟩, ticks 0⟩⟩
        ⟨F64.fin 7, 7, 7⟩).1 = none ∧
    (ProcUsage { Globals.init with initialSample := false }
        ⟨.ok (), (some "bad handle", ⟨0, 0⟩),
         ⟨.error "access denied", .ok ⟨ticks 0, ticks 0, ticks 0⟩, ticks 0⟩⟩
        ⟨F64.fin 7, 7, 7⟩).2.1 = ⟨F64.fin (-1), 0, 0⟩ := by
  refine ⟨rfl, rfl, ?_⟩
  simp [ProcUsage, getCPUPercentage, getCPUTimes, wrap64]

/-! ## ProcUsagePDH -/

/-- When `sample` returns no error, it leaves `initialSample` as it was and the cached
values are the reading it returned. -/
theorem sample_ok (g : Globals) (b : PdhBackend) (exitNow : Int) (out : Reading)
    (calls : List PdhCall) (r : PdhResult) (hr : sample g b exitNow out calls = r)
    (h : r.ending = .ok) :
    r.globals.initialSample = g.initialSample ∧
      r.out = ⟨r.globals.prevCPU, r.globals.prevRss, r.globals.prevVss⟩ := by
  unfold sample at hr
  simp only at hr
  repeat' split at hr
  all_goals subst hr
  all_goals first
    | (exfalso; simp at h; done)
    | simp

/-- When `ProcUsagePDH` returns no error, `initialSample` is false afterwards and the
cached values are the reading it returned. -/
theorem ProcUsagePDH_ok (g : Globals) (b : PdhBackend) (now exitNow : Int) (out : Reading)
    (h : (ProcUsagePDH g b now exitNow out).ending = .ok) :
    (ProcUsagePDH g b now exitNow out).globals.initialSample = false ∧
      (ProcUsagePDH g b now exitNow out).out =
        ⟨(ProcUsagePDH g b now exitNow out).globals.prevCPU,
         (ProcUsagePDH g b now exitNow out).globals.prevRss,
         (ProcUsagePDH g b now exitNow out).globals.prevVss⟩ := by
  unfold ProcUsagePDH at h ⊢
  by_cases hi : g.initialSample = true
  · simp only [hi, if_true] at h ⊢
    cases hc : initCounters b with
    | mk e calls =>
      cases e with
      | some err => simp [hc] at h
      | none =>
        simp only [hc] at h ⊢
        exact sample_ok _ b exitNow out calls _ rfl h
  · have hi0 : g.initialSample = false := by simpa using hi
    simp only [hi0, Bool.false_eq_true, if_false] at h ⊢
    by_cases ht : now - g.lastSampleTime < minRefreshInterval
    · simp [ht, hi0]
    · simp only [ht, if_false] at h ⊢
      have := sample_ok g b exitNow out [] _ rfl h
      exact ⟨this.1.trans hi0, this.2⟩

/-- A call made within the refresh interval, with `initialSample` false, returns the
cached values without error, calls nothing and changes no global. -/
theorem ProcUsagePDH_throttled (g : Globals) (b : PdhBackend) (now exitNow : Int)
    (out : Reading) (hi : g.initialSample = false)
    (ht : now - g.lastSampleTime < minRefreshInterval) :
    ProcUsagePDH g b now exitNow out = ⟨.ok, ⟨g.prevCPU, g.prevRss, g.prevVss⟩, g, []⟩ := by
  simp [ProcUsagePDH, hi, ht]

/-- C8, amended: after a call of `ProcUsagePDH` that returned no error, a following call
made less than `minRefreshInterval` after the stored `lastSampleTime` returns the same
reading as that call, reports no error, makes no call into `pdh.dll` and leaves every
global (`prevCPU`, `prevRss`, `prevVss`, `lastSampleTime` among them) unchanged. -/
theorem ProcUsagePDH_following_call_throttled (g : Globals) (b b2 : PdhBackend)
    (now exitNow now2 exitNow2 : Int) (out out2 : Reading)
    (hok : (ProcUsagePDH g b now exitNow out).ending = .ok)
    (hlt : now2 - (ProcUsagePDH g b now exitNow out).globals.lastSampleTime <
      minRefreshInterval) :
    (ProcUsagePDH (ProcUsagePDH g b now exitNow out).globals b2 now2 exitNow2 out2).out =
        (ProcUsagePDH g b now exitNow out).out ∧
    (ProcUsagePDH (ProcUsagePDH g b now exitNow out).globals b2 now2 exitNow2 out2).ending =
        .ok ∧
    (ProcUsagePDH (ProcUsagePDH g b now exitNow out).globals b2 now2 exitNow2 out2).calls =
        [] ∧
    (ProcUsagePDH (ProcUsagePDH g b now exitNow out).globals b2 now2 exitNow2 out2).globals =
        (ProcUsagePDH g b now exitNow out).globals := by
  have hinv := ProcUsagePDH_ok g b now exitNow out hok
  rw [ProcUsagePDH_throttled _ b2 now2 exitNow2 out2 hinv.1 hlt]
  exact ⟨hinv.2.symm, rfl, rfl, rfl⟩


set_option maxHeartbeats 400000 in
theorem getCounterArrayData_pdhBackendOf (pid cpu rss vss : ℚ) (c : Counter) :
    getCounterArrayData (pdhBackendOf pid cpu rss vss) c =
      (.ok, [match c with | .pid => pid | .cpu => cpu | .rss => rss | .vss => vss],
       [.getFormattedCounterArray c, .getFormattedCounterArray c]) := by
  cases c <;> simp [getCounterArrayData, pdhBackendOf, maxQuerySize, List.range_succ]

theorem initCounters_pdhBackendOf (pid cpu rss vss : ℚ) :
    initCounters (pdhBackendOf pid cpu rss vss) = (none,
     [.openQuery, .addCounter .pid, .addCounter .cpu, .addCounter .rss, .addCounter .vss,
      .collectQueryData]) := by
  simp [initCounters, pdhBackendOf]

theorem findPid_singleton : findPid [(2480 : ℚ)] = some 0 := by
  have h2480 : truncToInt (2480 : ℚ) = 2480 := by
    have := truncToInt_natCast 2480 (by norm_num)
    simpa using this
  simp [findPid, searchedPid, h2480]



/-- The way through `sample` on which every call succeeds and the searched pid is found. -/
theorem sample_found (g : Globals) (b : PdhBackend) (exitNow : Int) (out : Reading)
    (calls c1 c2 c3 c4 : List PdhCall) (pidAry cpuAry rssAry vssAry : List ℚ) (idx : Nat)
    (cpu rss vss : ℚ) (hc : b.collect = 0)
    (h1 : getCounterArrayData b .pid = (.ok, pidAry, c1))
    (h2 : getCounterArrayData b .cpu = (.ok, cpuAry, c2))
    (h3 : getCounterArrayData b .rss = (.ok, rssAry, c3))
    (h4 : getCounterArrayData b .vss = (.ok, vssAry, c4))
    (hf : findPid pidAry = some idx) (hcpu : cpuAry.get? idx = some cpu)
    (hrss : rssAry.get? idx = some rss) (hvss : vssAry.get? idx = some vss) :
    sample g b exitNow out calls =
      ⟨.ok, ⟨cpu, truncToInt rss, truncToInt vss⟩,
       { g with
         lastSampleTime := exitNow
         prevCPU := cpu
         prevRss := truncToInt rss
         prevVss := truncToInt vss },
       calls ++ [.collectQueryData] ++ c1 ++ c2 ++ c3 ++ c4⟩ := by
  unfold sample
  simp only [hc, h1, h2, h3, h4, hf, hcpu, hrss, hvss, ne_eq, not_true_eq_false, if_false]

/-- The way through `sample` on which the refresh fails. -/
theorem sample_collect_fails (g : Globals) (b : PdhBackend) (exitNow : Int) (out : Reading)
    (calls : List PdhCall) (hc : b.collect ≠ 0) :
    sample g b exitNow out calls =
      ⟨.error ("pdhCollectQueryData failed. " ++ toString b.collect), out,
       { g with lastSampleTime := exitNow }, calls ++ [.collectQueryData]⟩ := by
  unfold sample
  simp only [hc, ne_eq, not_false_eq_true, if_true]

/-- A first call (`initialSample` true) whose initialisation succeeds goes on to
`sample`. -/
theorem ProcUsagePDH_first (g : Globals) (b : PdhBackend) (now exitNow : Int) (out : Reading)
    (calls : List PdhCall) (hi : g.initialSample = true) (h : initCounters b = (none, calls)) :
    ProcUsagePDH g b now exitNow out =
      sample { g with initialSample := false } b exitNow out calls := by
  unfold ProcUsagePDH
  simp only [hi, if_true, h]

theorem sample_pdhBackendOf (g : Globals) (cpu rss vss : ℚ) (exitNow : Int)
    (out : Reading) (calls : List PdhCall) :
    sample g (pdhBackendOf 2480 cpu rss vss) exitNow out calls =
      ⟨.ok, ⟨cpu, truncToInt rss, truncToInt vss⟩,
       { g with
         lastSampleTime := exitNow
         prevCPU := cpu
         prevRss := truncToInt rss
         prevVss := truncToInt vss },
       calls ++ [.collectQueryData] ++
        [.getFormattedCounterArray .pid, .getFormattedCounterArray .pid] ++
        [.getFormattedCounterArray .cpu, .getFormattedCounterArray .cpu] ++
        [.getFormattedCounterArray .rss, .getFormattedCounterArray .rss] ++
        [.getFormattedCounterArray .vss, .getFormattedCounterArray .vss]⟩ :=
  sample_found g _ exitNow out calls _ _ _ _ _ _ _ _ 0 cpu rss vss rfl
    (getCounterArrayData_pdhBackendOf _ _ _ _ _) (getCounterArrayData_pdhBackendOf _ _ _ _ _)
    (getCounterArrayData_pdhBackendOf _ _ _ _ _) (getCounterArrayData_pdhBackendOf _ _ _ _ _)
    findPid_singleton rfl rfl rfl

theorem ProcUsagePDH_pdhBackendOf (cpu rss vss : ℚ) (now exitNow : Int) (out : Reading) :
    ProcUsagePDH Globals.init (pdhBackendOf 2480 cpu rss vss) now exitNow out =
      ⟨.ok, ⟨cpu, truncToInt rss, truncToInt vss⟩,
       { Globals.init with
         initialSample := false
         lastSampleTime := exitNow
         prevCPU := cpu
         prevRss := truncToInt rss
         prevVss := truncToInt vss },
       [.openQuery, .addCounter .pid, .addCounter .cpu, .addCounter .rss, .addCounter .vss,
        .collectQueryData, .collectQueryData,
        .getFormattedCounterArray .pid, .getFormattedCounterArray .pid,
        .getFormattedCounterArray .cpu, .getFormattedCounterArray .cpu,
        .getFormattedCounterArray .rss, .getFormattedCounterArray .rss,
        .getFormattedCounterArray .vss, .getFormattedCounterArray .vss]⟩ := by
  rw [ProcUsagePDH_first _ _ _ _ _ _ rfl (initCounters_pdhBackendOf _ _ _ _),
    sample_pdhBackendOf]
  rfl

/-- Witness of the amended C8: the first call samples (12.5, 1000, 2000) at time 5 s;
a call 0.5 s later, on a backend that would fail, returns the same reading from the
cache. -/
theorem ProcUsagePDH_following_call_throttled_witness :
    (ProcUsagePDH Globals.init (pdhBackendOf 2480 12.5 1000 2000) 5000000000 5000000000
        ⟨0, 0, 0⟩).ending = .ok ∧
    5500000000 - (ProcUsagePDH Globals.init (pdhBackendOf 2480 12.5 1000 2000) 5000000000
        5000000000 ⟨0, 0, 0⟩).globals.lastSampleTime < minRefreshInterval ∧
    (ProcUsagePDH
        (ProcUsagePDH Globals.init (pdhBackendOf 2480 12.5 1000 2000) 5000000000 5000000000
          ⟨0, 0, 0⟩).globals
        pdhBackendCollectFails 5500000000 5500000000 ⟨0, 0, 0⟩).out = ⟨12.5, 1000, 2000⟩ := by
  have h1000 : truncToInt (1000 : ℚ) = 1000 := by simpa using truncToInt_natCast 1000 (by norm_num)
  have h2000 : truncToInt (2000 : ℚ) = 2000 := by simpa using truncToInt_natCast 2000 (by norm_num)
  have hok : (ProcUsagePDH Globals.init (pdhBackendOf 2480 12.5 1000 2000) 5000000000
      5000000000 ⟨0, 0, 0⟩).ending = .ok := by
    rw [ProcUsagePDH_pdhBackendOf]
  have hlt : 5500000000 - (ProcUsagePDH Globals.init (pdhBackendOf 2480 12.5 1000 2000)
      5000000000 5000000000 ⟨0, 0, 0⟩).globals.lastSampleTime < minRefreshInterval := by
    rw [ProcUsagePDH_pdhBackendOf]
    decide
  refine ⟨hok, hlt, ?_⟩
  rw [(ProcUsagePDH_following_call_throttled Globals.init (pdhBackendOf 2480 12.5 1000 2000)
    pdhBackendCollectFails 5000000000 5000000000 5500000000 5500000000 ⟨0, 0, 0⟩ ⟨0, 0, 0⟩
    hok hlt).1, ProcUsagePDH_pdhBackendOf, h1000, h2000]

/-- C8, counterexample: from the initial globals a call at time 5 s initialises the
counters, fails in the refresh and returns that error, leaving the pointer targets
(7, 7, 7) as they were; the following call 0.5 s later, within the refresh interval of
the stored `lastSampleTime`, reports no error and returns the reading (0, 0, 0), which
the preceding call did not return. -/
theorem ProcUsagePDH_throttled_after_error :
    (ProcUsagePDH Globals.init pdhBackendCollectFails 5000000000 5000000000
        ⟨7, 7, 7⟩).ending = .error "pdhCollectQueryData failed. 5" ∧
    (ProcUsagePDH Globals.init pdhBackendCollectFails 5000000000 5000000000
        ⟨7, 7, 7⟩).out = ⟨7, 7, 7⟩ ∧
    5500000000 - (ProcUsagePDH Globals.init pdhBackendCollectFails 5000000000 5000000000
        ⟨7, 7, 7⟩).globals.lastSampleTime < minRefreshInterval ∧
    (ProcUsagePDH
        (ProcUsagePDH Globals.init pdhBackendCollectFails 5000000000 5000000000
          ⟨7, 7, 7⟩).globals
        pdhBackendCollectFails 5500000000 5500000000 ⟨7, 7, 7⟩).ending = .ok ∧
    (ProcUsagePDH
        (ProcUsagePDH Globals.init pdhBackendCollectFails 5000000000 5000000000
          ⟨7, 7, 7⟩).globals
        pdhBackendCollectFails 5500000000 5500000000 ⟨7, 7, 7⟩).out = ⟨0, 0, 0⟩ ∧
    (ProcUsagePDH
        (ProcUsagePDH Globals.init pdhBackendCollectFails 5000000000 5000000000
          ⟨7, 7, 7⟩).globals
        pdhBackendCollectFails 5500000000 5500000000 ⟨7, 7, 7⟩).out ≠
      (ProcUsagePDH Globals.init pdhBackendCollectFails 5000000000 5000000000
        ⟨7, 7, 7⟩).out := by
  have hinit : initCounters pdhBackendCollectFails = (none,
      [.openQuery, .addCounter .pid, .addCounter .cpu, .addCounter .rss, .addCounter .vss,
       .collectQueryData]) := by
    simp [initCounters, pdhBackendCollectFails]
  have hne : pdhBackendCollectFails.collect ≠ 0 := by decide
  have e1 : ProcUsagePDH Globals.init pdhBackendCollectFails 5000000000 5000000000
      ⟨7, 7, 7⟩ =
      ⟨.error "pdhCollectQueryData failed. 5", ⟨7, 7, 7⟩,
       { Globals.init with initialSample := false, lastSampleTime := 5000000000 },
       [.openQuery, .addCounter .pid, .addCounter .cpu, .addCounter .rss, .addCounter .vss,
        .collectQueryData, .collectQueryData]⟩ := by
    rw [ProcUsagePDH_first _ _ _ _ _ _ rfl hinit, sample_collect_fails _ _ _ _ _ hne]
    rfl
  rw [e1]
  simp only
  rw [ProcUsagePDH_throttled _ _ _ _ _ rfl (by decide)]
  refine ⟨trivial, trivial, by decide, rfl, rfl, ?_⟩
  simp [Globals.init]

end WinPse

namespace Typeperf

open Go

/-! ## Strings -/

theorem splitAux_comma_no_sep (a : GoString) (h : ',' ∉ a) :
    splitAux [','] a 0 = [a] := by
  induction a with
  | nil => rfl
  | cons c rest ih =>
    have hc : ',' ≠ c := fun e => h (by simp [e.symm])
    have hr : ',' ∉ rest := fun e => h (by simp [e])
    simp [splitAux, List.isPrefixOf, hc, ih hr]

theorem splitAux_comma_append (a rest : GoString) (h : ',' ∉ a) :
    splitAux [','] (a ++ ',' :: rest) 0 = a :: splitAux [','] rest 0 := by
  induction a with
  | nil => simp [splitAux, List.isPrefixOf]
  | cons c r ih =>
    have hc : ',' ≠ c := fun e => h (by simp [e.symm])
    have hr : ',' ∉ r := fun e => h (by simp [e])
    simp [splitAux, List.isPrefixOf, hc, ih hr]

theorem stringsSplit_five (f0 f1 f2 f3 f4 : GoString) (h0 : ',' ∉ f0) (h1 : ',' ∉ f1)
    (h2 : ',' ∉ f2) (h3 : ',' ∉ f3) (h4 : ',' ∉ f4) :
    stringsSplit (f0 ++ ',' :: f1 ++ ',' :: f2 ++ ',' :: f3 ++ ',' :: f4) ",".toList =
      [f0, f1, f2, f3, f4] := by
  have e : ",".toList = [','] := rfl
  simp only [stringsSplit, e, List.append_assoc, List.cons_append]
  rw [splitAux_comma_append _ _ h0, splitAux_comma_append _ _ h1,
    splitAux_comma_append _ _ h2, splitAux_comma_append _ _ h3, splitAux_comma_no_sep _ h4]

theorem dropWhile_eq_self_of_not (p : Char → Bool) (l : GoString) (h : ∀ c ∈ l, p c = false) :
    l.dropWhile p = l := by
  cases l with
  | nil => rfl
  | cons c r => simp [List.dropWhile, h c (by simp)]

theorem stringsTrim_quoted (n : GoString) (h : Char.ofNat 34 ∉ n) :
    stringsTrim (quoted n) quoteCutset = n := by
  have hp : ∀ c ∈ n, (quoteCutset.contains c) = false := by
    intro c hc
    have : c ≠ Char.ofNat 34 := fun e => h (e ▸ hc)
    simp [quoteCutset, this]
  have hq : quoteCutset.contains (Char.ofNat 34) = true := by simp [quoteCutset]
  unfold stringsTrim quoted
  have e1 : (quoteCutset ++ n ++ quoteCutset) = Char.ofNat 34 :: (n ++ [Char.ofNat 34]) := by
    simp [quoteCutset]
  rw [e1, List.dropWhile_cons_of_pos hq]
  cases n with
  | nil => simp [List.dropWhile, hq]
  | cons c r =>
    have hc := hp c (by simp)
    have e2 : (c :: r ++ [Char.ofNat 34]) = c :: (r ++ [Char.ofNat 34]) := rfl
    rw [e2, List.dropWhile_cons_of_neg (by rw [hc]; exact Bool.false_ne_true)]
    have e3 : (c :: (r ++ [Char.ofNat 34])).reverse = Char.ofNat 34 :: (c :: r).reverse := by
      simp
    rw [e3, List.dropWhile_cons_of_pos hq, dropWhile_eq_self_of_not, List.reverse_reverse]
    intro x hx
    exact hp x (List.mem_reverse.mp hx)

/-! ## Numerals -/

theorem mantissaLoop_chars (hex : Bool) :
    ∀ (body : GoString) (m : Mantissa),
      ∃ pre, body = pre ++ (mantissaLoop hex m body).2 ∧ ∀ c ∈ pre, numChar c = true := by
  intro body
  induction body with
  | nil => intro m; exact ⟨[], rfl, by simp⟩
  | cons c rest ih =>
    intro m
    unfold mantissaLoop
    by_cases h1 : c = '_'
    · obtain ⟨pre, hp, hc⟩ := ih m
      refine ⟨c :: pre, ?_, ?_⟩
      · simp only [h1, if_true, List.cons_append]
        rw [← h1, ← hp]
      · intro x hx
        rcases List.mem_cons.mp hx with e | e
        · rw [e, h1]; decide
        · exact hc x e
    · simp only [h1, if_false]
      by_cases h2 : c = '.'
      · simp only [h2, if_true]
        by_cases h3 : m.sawdot = true
        · exact ⟨[], by simp [h3], by simp⟩
        · obtain ⟨pre, hp, hc⟩ := ih { m with sawdot := true }
          refine ⟨'.' :: pre, ?_, ?_⟩
          · simp only [h3, Bool.false_eq_true, if_false, List.cons_append]
            rw [← hp]
          · intro x hx
            rcases List.mem_cons.mp hx with e | e
            · rw [e]; decide
            · exact hc x e
      · simp only [h2, if_false]
        by_cases h4 : c.isDigit = true
        · obtain ⟨pre, hp, hc⟩ := ih (m.push (if hex then 16 else 10) (digitVal c))
          refine ⟨c :: pre, ?_, ?_⟩
          · simp only [h4, if_true, List.cons_append]
            rw [← hp]
          · intro x hx
            rcases List.mem_cons.mp hx with e | e
            · rw [e]; simp [numChar, h4]
            · exact hc x e
        · simp only [h4, if_false]
          by_cases h5 : (hex && isHexLetter c) = true
          · obtain ⟨pre, hp, hc⟩ := ih (m.push 16 (hexLetterVal c))
            refine ⟨c :: pre, ?_, ?_⟩
            · simp only [h5, Bool.false_eq_true, if_true, if_false, List.cons_append]
              rw [← hp]
            · intro x hx
              rcases List.mem_cons.mp hx with e | e
              · have : isHexLetter c = true := ((Bool.and_eq_true _ _).mp h5).2
                rw [e]; simp [numChar, this]
              · exact hc x e
          · exact ⟨[], by simp [h5], by simp⟩

theorem exponentLoop_chars :
    ∀ (s : GoString) (e e1 : Nat), exponentLoop e s = some e1 → ∀ c ∈ s, numChar c = true := by
  intro s
  induction s with
  | nil => intro e e1 _ c hc; simp at hc
  | cons a rest ih =>
    intro e e1 h c hc
    unfold exponentLoop at h
    by_cases h1 : a = '_'
    · simp only [h1, if_true] at h
      rcases List.mem_cons.mp hc with x | x
      · rw [x, h1]; decide
      · exact ih _ _ h c x
    · simp only [h1, if_false] at h
      by_cases h2 : a.isDigit = true
      · simp only [h2, if_true] at h
        rcases List.mem_cons.mp hc with x | x
        · rw [x]; simp [numChar, h2]
        · exact ih _ _ h c x
      · simp [h2] at h

theorem readExponent_chars (s : GoString) (e : Int) (h : readExponent s = some e) :
    ∀ c ∈ s, numChar c = true := by
  intro c hc
  unfold readExponent at h
  split at h
  · simp at h
  · rename_i rest
    split at h
    · cases hl : exponentLoop 0 rest with
      | none => simp [hl] at h
      | some e1 =>
        rcases List.mem_cons.mp hc with x | x
        · rw [x]; decide
        · exact exponentLoop_chars rest 0 e1 hl c x
    · simp at h
  · rename_i rest
    split at h
    · cases hl : exponentLoop 0 rest with
      | none => simp [hl] at h
      | some e1 =>
        rcases List.mem_cons.mp hc with x | x
        · rw [x]; decide
        · exact exponentLoop_chars rest 0 e1 hl c x
    · simp at h
  · rename_i a rest _ _
    split at h
    · cases hl : exponentLoop 0 (a :: rest) with
      | none => simp [hl] at h
      | some e1 => exact exponentLoop_chars (a :: rest) 0 e1 hl c hc
    · simp at h

theorem numChar_of_exponent_letter (hex : Bool) (c : Char)
    (h : c.toLower = (if hex then 'p' else 'e')) : numChar c = true := by
  cases hex with
  | true =>
    have h1 : c.toLower = 'p' := by simpa using h
    simp [numChar, h1]
  | false =>
    have h1 : c.toLower = 'e' := by simpa using h
    have h2 : isHexLetter c = true := by
      unfold isHexLetter
      rw [h1]
      decide
    simp [numChar, h2]

theorem readDigitsAndExponent_chars (hex : Bool) (s : GoString) (r : Mantissa × Int)
    (h : readDigitsAndExponent hex s = some r) : ∀ c ∈ s, numChar c = true := by
  obtain ⟨pre, hp, hc⟩ := mantissaLoop_chars hex s ⟨0, 0, false, false⟩
  intro c hmem
  unfold readDigitsAndExponent at h
  split at h
  · simp at h
  · split at h
    · rename_i heq
      rw [heq, List.append_nil] at hp
      rw [hp] at hmem
      exact hc c hmem
    · rename_i a rest heq
      rw [heq] at hp
      by_cases hletter : a.toLower = (if hex = true then 'p' else 'e')
      · cases he : readExponent rest with
        | none => simp [hletter, he] at h
        | some e =>
          rw [hp] at hmem
          rcases List.mem_append.mp hmem with x | x
          · exact hc c x
          · rcases List.mem_cons.mp x with y | y
            · rw [y]
              exact numChar_of_exponent_letter hex a hletter
            · exact readExponent_chars rest e he c y
      · rw [if_neg hletter] at h
        simp at h

theorem mem_of_mem_stripSign (s : GoString) (c : Char) (h : c ∈ s) :
    c ∈ stripSign s ∨ c = '-' ∨ c = '+' := by
  unfold stripSign
  split
  · rcases List.mem_cons.mp h with e | e
    · exact Or.inr (Or.inl e)
    · exact Or.inl e
  · rcases List.mem_cons.mp h with e | e
    · exact Or.inr (Or.inr e)
    · exact Or.inl e
  · exact Or.inl h

theorem mem_of_hasHexPrefix (body : GoString) (c : Char) (h : hasHexPrefix body = true)
    (hc : c ∈ body) : numChar c = true ∨ c ∈ body.drop 2 := by
  unfold hasHexPrefix at h
  split at h
  · rename_i x y rest
    have hx : x.toLower = 'x' := by simpa using h
    rcases List.mem_cons.mp hc with e | e
    · left; rw [e]; decide
    · rcases List.mem_cons.mp e with e1 | e1
      · left; rw [e1]; simp [numChar, hx]
      · right; simpa using e1
  · simp at h

theorem readFloat_chars (s : GoString) (p : Parsed) (h : readFloat s = some p) :
    ∀ c ∈ s, numChar c = true := by
  intro c hc
  unfold readFloat at h
  split at h
  · simp at h
  · rename_i me heq
    have hbody := readDigitsAndExponent_chars _ _ me heq
    rcases mem_of_mem_stripSign s c hc with h1 | h1 | h1
    · by_cases hx : hasHexPrefix (stripSign s) = true
      · rcases mem_of_hasHexPrefix _ c hx h1 with h2 | h2
        · exact h2
        · apply hbody
          simp only [hx, if_true]
          exact h2
      · apply hbody
        simp only [hx, Bool.false_eq_true, if_false]
        exact h1
    · rw [h1]; decide
    · rw [h1]; decide

theorem special_not_mem (s : GoString) (f : Float64) (h : special s = some f) (c : Char)
    (hc : c.toLower = c)
    (hno : c ∉ ['n', 'a', 'i', 'f', 't', 'y', '+', '-']) : c ∉ s := by
  intro hm
  have hmap : c ∈ s.map Char.toLower := by
    have := List.mem_map_of_mem Char.toLower hm
    rwa [hc] at this
  have hsub : ∀ l : GoString, s.map Char.toLower = l →
      (∀ x ∈ l, x ∈ ['n', 'a', 'i', 'f', 't', 'y', '+', '-']) → False := by
    intro l hl hall
    rw [hl] at hmap
    exact hno (hall c hmap)
  unfold special at h
  by_cases h1 : s.map Char.toLower = "nan".toList
  · exact hsub _ h1 (by decide)
  · rw [if_neg h1] at h
    by_cases h2 : s.map Char.toLower = "inf".toList ∨ s.map Char.toLower = "+inf".toList ∨
        s.map Char.toLower = "infinity".toList ∨ s.map Char.toLower = "+infinity".toList
    · rcases h2 with e | e | e | e
      · exact hsub _ e (by decide)
      · exact hsub _ e (by decide)
      · exact hsub _ e (by decide)
      · exact hsub _ e (by decide)
    · rw [if_neg h2] at h
      by_cases h3 : s.map Char.toLower = "-inf".toList ∨
          s.map Char.toLower = "-infinity".toList
      · rcases h3 with e | e
        · exact hsub _ e (by decide)
        · exact hsub _ e (by decide)
      · rw [if_neg h3] at h
        simp at h

/-- A string that `parseFloat` reads without error holds neither a comma nor a double
quote. -/
theorem parseFloat_chars (s : GoString) (v : Float64) (h : parseFloat s = (v, none)) :
    ',' ∉ s ∧ Char.ofNat 34 ∉ s := by
  unfold parseFloat at h
  split at h
  · rename_i f hs
    exact ⟨special_not_mem s f hs ',' (by decide) (by decide),
      special_not_mem s f hs (Char.ofNat 34) (by decide) (by decide)⟩
  · split at h
    · simp at h
    · rename_i p hr
      have hc := readFloat_chars s p hr
      constructor
      · intro hm
        exact absurd (hc _ hm) (by decide)
      · intro hm
        exact absurd (hc _ hm) (by decide)

theorem comma_not_mem_quoted (n : GoString) (h : ',' ∉ n) : ',' ∉ quoted n := by
  have hq : ',' ≠ Char.ofNat 34 := by decide
  intro hm
  unfold quoted quoteCutset at hm
  rcases List.mem_append.mp hm with e | e
  · rcases List.mem_append.mp e with e | e
    · exact hq (List.mem_singleton.mp e)
    · exact h e
  · exact hq (List.mem_singleton.mp e)

/-! ## parseResult -/

/-- A line of a first field without comma and four quoted decimal numerals parses to the
values of the numerals. -/
theorem parseResult_quoted_fields (f0 n1 n2 n3 n4 : GoString) (v1 v2 v3 v4 : Float64) (st : Stats)
    (h0 : ',' ∉ f0) (h1 : parseFloat n1 = (v1, none)) (h2 : parseFloat n2 = (v2, none))
    (h3 : parseFloat n3 = (v3, none)) (h4 : parseFloat n4 = (v4, none)) :
    parseResult
        (f0 ++ ',' :: quoted n1 ++ ',' :: quoted n2 ++ ',' :: quoted n3 ++ ',' :: quoted n4)
        st =
      (.ok, ⟨v1.toInt64, v2, v3.toInt64, v4.toInt64⟩) := by
  have c1 := parseFloat_chars n1 v1 h1
  have c2 := parseFloat_chars n2 v2 h2
  have c3 := parseFloat_chars n3 v3 h3
  have c4 := parseFloat_chars n4 v4 h4
  unfold parseResult
  rw [stringsSplit_five f0 (quoted n1) (quoted n2) (quoted n3) (quoted n4) h0
    (comma_not_mem_quoted _ c1.1) (comma_not_mem_quoted _ c2.1)
    (comma_not_mem_quoted _ c3.1) (comma_not_mem_quoted _ c4.1)]
  simp [stringsTrim_quoted _ c1.2, stringsTrim_quoted _ c2.2, stringsTrim_quoted _ c3.2,
    stringsTrim_quoted _ c4.2, h1, h2, h3, h4]

/-- How `parseFloat` reads a well-formed number whose value `q` is within the range of
`float64`. -/
theorem parseFloat_of_readFloat (s : GoString) (p : Parsed) (q : ℚ) (hs : special s = none)
    (hr : readFloat s = some p) (hv : p.value = q) (hlt : |q| < overflowThreshold) :
    parseFloat s = (Float64.ofRat q, none) := by
  unfold parseFloat
  rw [hs, hr]
  simp only [hv]
  rw [if_neg (not_le.mpr hlt)]

/-- How `parseFloat` reads a well-formed number whose value is beyond the range of
`float64`. -/
theorem parseFloat_out_of_range (s : GoString) (p : Parsed) (hs : special s = none)
    (hr : readFloat s = some p) (hge : overflowThreshold ≤ |p.value|) :
    parseFloat s = (Float64.ofRat p.value, some .outOfRange) := by
  unfold parseFloat
  rw [hs, hr]
  simp only
  rw [if_pos hge]

/-! ## Decimal numerals -/

theorem toLower_of_isDigit (c : Char) (h : c.isDigit = true) : c.toLower = c := by
  have h1 : c.val ≤ 57 := by
    have := h
    simp only [Char.isDigit, Bool.and_eq_true, decide_eq_true_eq] at this
    exact this.2
  have h2 : c.toNat ≤ 57 := h1
  unfold Char.toLower
  simp only []
  rw [if_neg]
  omega

theorem foldl_digits (fp : GoString) :
    ∀ a : Nat, fp.foldl (fun n c => n * 10 + (c.toNat - 48)) a =
      a * 10 ^ fp.length + digitsVal fp := by
  induction fp with
  | nil => intro a; simp [digitsVal]
  | cons c r ih =>
    intro a
    unfold digitsVal
    simp only [List.foldl_cons, List.length_cons]
    rw [ih (a * 10 + (c.toNat - 48)), ih (0 * 10 + (c.toNat - 48))]
    ring

theorem digitsVal_append (ip fp : GoString) :
    digitsVal (ip ++ fp) = digitsVal ip * 10 ^ fp.length + digitsVal fp := by
  unfold digitsVal
  rw [List.foldl_append]
  exact foldl_digits fp _

theorem mantissaLoop_digits (rest : GoString) :
    ∀ (ds : GoString) (m : Mantissa), (∀ c ∈ ds, c.isDigit = true) →
      mantissaLoop false m (ds ++ rest) =
        mantissaLoop false
          ⟨ds.foldl (fun n c => n * 10 + (c.toNat - 48)) m.digits,
           if m.sawdot then m.nfrac + ds.length else m.nfrac, m.sawdot,
           m.sawdigits || !ds.isEmpty⟩ rest := by
  intro ds
  induction ds with
  | nil => intro m _; cases m; simp
  | cons c r ih =>
    intro m h
    have hc : c.isDigit = true := h c (by simp)
    have h1 : c ≠ '_' := fun e => by rw [e] at hc; exact absurd hc (by decide)
    have h2 : c ≠ '.' := fun e => by rw [e] at hc; exact absurd hc (by decide)
    rw [List.cons_append, mantissaLoop]
    simp only [h1, h2, hc, if_true, if_false, Bool.false_eq_true]
    rw [ih _ (fun x hx => h x (by simp [hx]))]
    congr 1
    cases hd : m.sawdot <;>
      simp [Mantissa.push, hd, digitVal, Nat.add_assoc, Nat.add_comm 1]

theorem mantissaLoop_numeral (ip fp : GoString) (h : IsNumeral ip fp) :
    mantissaLoop false ⟨0, 0, false, false⟩ (ip ++ '.' :: fp) =
      (⟨digitsVal (ip ++ fp), fp.length, true, true⟩, []) := by
  obtain ⟨hip, hfp, hne⟩ := h
  rw [mantissaLoop_digits ('.' :: fp) ip _ hip, mantissaLoop]
  simp only [Char.reduceEq, if_true, if_false, Bool.false_eq_true, Bool.false_or]
  have e := mantissaLoop_digits [] fp
    ⟨ip.foldl (fun n c => n * 10 + (c.toNat - 48)) 0, 0, true, !ip.isEmpty⟩ hfp
  rw [List.append_nil] at e
  rw [e, mantissaLoop]
  have hs : (!ip.isEmpty || !fp.isEmpty) = true := by
    cases ip with
    | cons _ _ => simp
    | nil =>
      cases fp with
      | cons _ _ => simp
      | nil => exact absurd ⟨rfl, rfl⟩ hne
  simp only [if_true, Nat.zero_add, hs]
  unfold digitsVal
  rw [List.foldl_append]

theorem body_chars (ip fp : GoString) (h : IsNumeral ip fp) :
    ∀ c ∈ ip ++ '.' :: fp, c.isDigit = true ∨ c = '.' := by
  intro c hc
  rcases List.mem_append.mp hc with x | x
  · exact Or.inl (h.1 c x)
  · rcases List.mem_cons.mp x with y | y
    · exact Or.inr y
    · exact Or.inl (h.2.1 c y)

theorem stripSign_body (body : GoString) (h : ∀ c ∈ body, c.isDigit = true ∨ c = '.') :
    stripSign body = body := by
  unfold stripSign
  split
  · rename_i rest
    rcases h '-' (by simp) with x | x
    · exact absurd x (by decide)
    · exact absurd x (by decide)
  · rename_i rest
    rcases h '+' (by simp) with x | x
    · exact absurd x (by decide)
    · exact absurd x (by decide)
  · rfl

theorem hasHexPrefix_body (body : GoString) (h : ∀ c ∈ body, c.isDigit = true ∨ c = '.') :
    hasHexPrefix body = false := by
  unfold hasHexPrefix
  split
  · rename_i x y rest
    rcases h x (by simp) with e | e
    · rw [toLower_of_isDigit x e]
      have : x ≠ 'x' := fun e1 => by rw [e1] at e; exact absurd e (by decide)
      simp [this]
    · rw [e]; decide
  · rfl

theorem contains_underscore_body (body : GoString)
    (h : ∀ c ∈ body, c.isDigit = true ∨ c = '.') : body.contains '_' = false := by
  rw [Bool.eq_false_iff]
  intro hc
  have hm : '_' ∈ body := by simpa using hc
  rcases h '_' hm with x | x
  · exact absurd x (by decide)
  · exact absurd x (by decide)

theorem readFloat_numeral (neg : Bool) (ip fp : GoString) (h : IsNumeral ip fp) :
    readFloat (numeral neg ip fp) = some ⟨neg, false, digitsVal (ip ++ fp), fp.length, 0⟩ := by
  have hb := body_chars ip fp h
  have hstrip : stripSign (numeral neg ip fp) = ip ++ '.' :: fp := by
    cases neg with
    | true => simp [numeral, stripSign]
    | false => simpa [numeral] using stripSign_body _ hb
  have hhex := hasHexPrefix_body _ hb
  have hund : (numeral neg ip fp).contains '_' = false := by
    have := contains_underscore_body _ hb
    cases neg with
    | true =>
      rw [Bool.eq_false_iff] at this ⊢
      intro hc
      apply this
      simp only [numeral, if_true, List.singleton_append, List.contains_cons] at hc
      simpa using hc
    | false => simpa [numeral] using this
  have hhead : decide ((numeral neg ip fp).head? = some '-') = neg := by
    cases neg with
    | true => simp [numeral]
    | false =>
      simp only [numeral, Bool.false_eq_true, if_false, List.nil_append, decide_eq_false_iff_not]
      intro e
      have hm : '-' ∈ ip ++ '.' :: fp := by
        cases hl : ip ++ '.' :: fp with
        | nil => rw [hl] at e; simp at e
        | cons a r =>
          rw [hl] at e
          simp only [List.head?_cons, Option.some.injEq] at e
          rw [e]; simp
      rcases hb '-' hm with x | x
      · exact absurd x (by decide)
      · exact absurd x (by decide)
  have hrd : readDigitsAndExponent false (ip ++ '.' :: fp) =
      some (⟨digitsVal (ip ++ fp), fp.length, true, true⟩, 0) := by
    unfold readDigitsAndExponent
    rw [mantissaLoop_numeral ip fp h]
    simp
  unfold readFloat
  rw [hstrip, hhex]
  simp only [Bool.false_eq_true, if_false, hrd, hund, Bool.false_and, hhead]

theorem value_numeral (neg : Bool) (ip fp : GoString) :
    (⟨neg, false, digitsVal (ip ++ fp), fp.length, 0⟩ : Parsed).value =
      numeralValue neg ip fp := by
  unfold Parsed.value numeralValue
  rw [digitsVal_append]
  simp only [Bool.false_eq_true, if_false, zero_sub, zpow_neg, zpow_natCast]
  push_cast
  field_simp

theorem special_of_point (s : GoString) (h : '.' ∈ s) : special s = none := by
  cases hs : special s with
  | none => rfl
  | some f => exact absurd h (special_not_mem s f hs '.' (by decide) (by decide))

/-- Every numeral `digits.digits` with at least one digit and an optional minus sign,
of a value below the range limit of `float64`, is read by `parseFloat` without error as
the `float64` nearest to its value. -/
theorem parseFloat_numeral (neg : Bool) (ip fp : GoString) (h : IsNumeral ip fp)
    (hlt : |numeralValue neg ip fp| < overflowThreshold) :
    parseFloat (numeral neg ip fp) = (Float64.ofRat (numeralValue neg ip fp), none) :=
  parseFloat_of_readFloat _ _ _
    (special_of_point _ (by cases neg <;> simp [numeral]))
    (readFloat_numeral neg ip fp h) (value_numeral neg ip fp) hlt

/-! ## parseResult on numerals -/

/-- A line whose third field is a string that `parseFloat` does not read without error:
pid is stored, pcpu receives the value `parseFloat` returns beside its error, and the
call ends with the error for the percent cpu field. -/
theorem parseResult_pcpu_error (f0 n1 n2 n3 n4 : GoString) (v1 v2 : Float64) (e : NumError)
    (st : Stats) (h0 : ',' ∉ f0) (h1 : parseFloat n1 = (v1, none))
    (h2 : parseFloat n2 = (v2, some e)) (hc2 : ',' ∉ n2) (hq2 : Char.ofNat 34 ∉ n2)
    (hc3 : ',' ∉ n3) (hc4 : ',' ∉ n4) :
    parseResult
        (f0 ++ ',' :: quoted n1 ++ ',' :: quoted n2 ++ ',' :: quoted n3 ++ ',' :: quoted n4)
        st =
      (.error ("Unable to parse percent cpu: ".toList ++ quoted n2),
       { st with pid := v1.toInt64, pcpu := v2 }) := by
  have c1 := parseFloat_chars n1 v1 h1
  unfold parseResult
  rw [stringsSplit_five f0 (quoted n1) (quoted n2) (quoted n3) (quoted n4) h0
    (comma_not_mem_quoted _ c1.1) (comma_not_mem_quoted _ hc2)
    (comma_not_mem_quoted _ hc3) (comma_not_mem_quoted _ hc4)]
  simp [stringsTrim_quoted _ c1.2, stringsTrim_quoted _ hq2, h1, h2]

theorem ofRat_twenty_nines :
    Float64.ofRat 99999999999999999999 = .fin 100000000000000000000 :=
  ofRat_eq_of_cert _ _ 66 6103515625000000 (by norm_num) (by norm_num [overflowThreshold])
    (by norm_num) (by norm_num) (by norm_num)
    (by rw [abs_lt]; constructor <;> norm_num) (by norm_num)

theorem ofRat_point_twenty_nines :
    Float64.ofRat (99999999999999999999 / 100000000000000000000) = .fin 1 :=
  ofRat_eq_of_cert _ _ (-1) 9007199254740992 (by norm_num) (by norm_num [overflowThreshold])
    (by norm_num) (by norm_num) (by norm_num)
    (by rw [abs_lt]; constructor <;> norm_num) (by norm_num)

theorem parseFloat_5123 : parseFloat "5123.00000".toList = (5123, none) :=
  parseFloat_of_readFloat _ ⟨false, false, 512300000, 5, 0⟩ _ (by decide) (by decide)
    (by norm_num [Parsed.value]) (by norm_num [overflowThreshold, abs_of_nonneg])

theorem parseFloat_1_234 : parseFloat "1.2340000".toList = (1.234, none) :=
  parseFloat_of_readFloat _ ⟨false, false, 12340000, 7, 0⟩ _ (by decide) (by decide)
    (by norm_num [Parsed.value]) (by norm_num [overflowThreshold, abs_of_nonneg])

theorem parseFloat_123 : parseFloat "123.00000".toList = (123, none) :=
  parseFloat_of_readFloat _ ⟨false, false, 12300000, 5, 0⟩ _ (by decide) (by decide)
    (by norm_num [Parsed.value]) (by norm_num [overflowThreshold, abs_of_nonneg])

set_option maxRecDepth 20000 in
set_option exponentiation.threshold 1000 in
theorem parseFloat_one_and_400_zeros :
    parseFloat ('1' :: List.replicate 400 '0') = (.posInf, some .outOfRange) := by
  have hs : special ('1' :: List.replicate 400 '0') = none := by decide
  have hr : readFloat ('1' :: List.replicate 400 '0') =
      some ⟨false, false, 10 ^ 400, 0, 0⟩ := by decide
  have hv : (⟨false, false, 10 ^ 400, 0, 0⟩ : Parsed).value = 10 ^ 400 := by
    norm_num [Parsed.value]
  have hge : overflowThreshold ≤ (10 : ℚ) ^ 400 := by
    unfold overflowThreshold
    norm_num
  have h := parseFloat_out_of_range _ _ hs hr (by rw [hv, abs_of_nonneg (by positivity)]; exact hge)
  rw [hv, ofRat_of_overflow _ hge] at h
  exact h

/-- C10, counterexample: three data lines of five comma-separated double-quoted fields
whose second to fifth fields are decimal numerals.  With 1 followed by 400 zeros as
third field `parseResult` does not succeed: the numeral is beyond the range of `float64`
and the call returns the error for the percent cpu field.  With 99999999999999999999 as
fourth field it succeeds and stores rss = -9223372036854775808, not the integer part of
the field.  With 0.99999999999999999999 as second field it succeeds and stores pid = 1,
not the integer part 0 of the field. -/
theorem parseResult_numerals_beyond_float64 :
    parseResult
        (quoted "04/17/2016 15.38.00.016".toList ++ ',' :: quoted "5123.00000".toList ++
          ',' :: quoted ('1' :: List.replicate 400 '0') ++ ',' :: quoted "123.00000".toList ++
          ',' :: quoted "123.00000".toList)
        ⟨0, 0, 0, 0⟩ =
      (.error ("Unable to parse percent cpu: ".toList ++
          quoted ('1' :: List.replicate 400 '0')),
       { pid := 5123, pcpu := .posInf, rss := 0, vss := 0 }) ∧
    parseResult
        "\"04/17/2016 15.38.00.016\",\"5123.00000\",\"1.2340000\",\"99999999999999999999\",\"123.00000\"".toList
        ⟨0, 0, 0, 0⟩ =
      (.ok, { pid := 5123, pcpu := 1.234, rss := -9223372036854775808, vss := 123 }) ∧
    parseResult
        "\"04/17/2016 15.38.00.016\",\"0.99999999999999999999\",\"1.2340000\",\"123.00000\",\"123.00000\"".toList
        ⟨0, 0, 0, 0⟩ =
      (.ok, { pid := 1, pcpu := 1.234, rss := 123, vss := 123 }) := by
  have hd : ',' ∉ quoted "04/17/2016 15.38.00.016".toList := by decide
  have t1 : (5123 : Float64).toInt64 = 5123 := toInt64_natCast 5123 (by norm_num)
  have t3 : (123 : Float64).toInt64 = 123 := toInt64_natCast 123 (by norm_num)
  have hbig : parseFloat "99999999999999999999".toList =
      (Float64.ofRat 99999999999999999999, none) :=
    parseFloat_of_readFloat _ ⟨false, false, 99999999999999999999, 0, 0⟩ _ (by decide)
      (by decide) (by norm_num [Parsed.value]) (by norm_num [overflowThreshold, abs_of_nonneg])
  have tbig : (Float64.ofRat 99999999999999999999).toInt64 = -9223372036854775808 := by
    rw [ofRat_twenty_nines]
    exact truncToInt_natCast_big 100000000000000000000 (by norm_num)
  have hnines : parseFloat "0.99999999999999999999".toList =
      (Float64.ofRat (99999999999999999999 / 100000000000000000000), none) :=
    parseFloat_of_readFloat _ ⟨false, false, 99999999999999999999, 20, 0⟩ _ (by decide)
      (by decide) (by norm_num [Parsed.value]) (by norm_num [overflowThreshold, abs_of_nonneg])
  have tnines :
      (Float64.ofRat (99999999999999999999 / 100000000000000000000)).toInt64 = 1 := by
    rw [ofRat_point_twenty_nines]
    exact truncToInt_natCast 1 (by norm_num)
  refine ⟨?_, ?_, ?_⟩
  · have e := parseResult_pcpu_error (quoted "04/17/2016 15.38.00.016".toList)
      "5123.00000".toList ('1' :: List.replicate 400 '0') "123.00000".toList
      "123.00000".toList 5123 .posInf .outOfRange ⟨0, 0, 0, 0⟩ hd parseFloat_5123
      parseFloat_one_and_400_zeros (by decide) (by decide) (by decide) (by decide)
    rw [t1] at e
    exact e
  · have e := parseResult_quoted_fields (quoted "04/17/2016 15.38.00.016".toList)
      "5123.00000".toList "1.2340000".toList "99999999999999999999".toList
      "123.00000".toList 5123 1.234 _ 123 ⟨0, 0, 0, 0⟩ hd parseFloat_5123 parseFloat_1_234
      hbig parseFloat_123
    rw [t1, t3, tbig] at e
    exact e
  · have e := parseResult_quoted_fields (quoted "04/17/2016 15.38.00.016".toList)
      "0.99999999999999999999".toList "1.2340000".toList "123.00000".toList
      "123.00000".toList _ 1.234 123 123 ⟨0, 0, 0, 0⟩ hd hnines parseFloat_1_234
      parseFloat_123 parseFloat_123
    rw [t3, tnines] at e
    exact e

/-- C10, amended: take a data line of five comma-separated double-quoted fields, the
first free of commas and each of the other four a decimal numeral `digits.digits` (at
least one digit, an optional minus sign) whose magnitude is below the rounding limit
`2^1024 - 2^970` of `float64`.  Then `parseResult` succeeds, whatever the pointer
targets held before; pcpu is the `float64` nearest to the value of field 3; and pid,
rss, vss are the `int` / `int64` conversions of the `float64` nearest to the values of
fields 2, 4, 5: the integer part of that float when the part lies in the `int64` range,
the smallest `int64` otherwise. -/
theorem parseResult_five_quoted_numerals (d : GoString) (s1 s2 s3 s4 : Bool)
    (i1 f1 i2 f2 i3 f3 i4 f4 : GoString) (st : Stats) (hd : ',' ∉ d)
    (h1 : IsNumeral i1 f1) (h2 : IsNumeral i2 f2) (h3 : IsNumeral i3 f3)
    (h4 : IsNumeral i4 f4)
    (r1 : |numeralValue s1 i1 f1| < overflowThreshold)
    (r2 : |numeralValue s2 i2 f2| < overflowThreshold)
    (r3 : |numeralValue s3 i3 f3| < overflowThreshold)
    (r4 : |numeralValue s4 i4 f4| < overflowThreshold) :
    ∃ pid rss vss : Int,
      parseResult
          (quoted d ++ ',' :: quoted (numeral s1 i1 f1) ++ ',' :: quoted (numeral s2 i2 f2) ++
            ',' :: quoted (numeral s3 i3 f3) ++ ',' :: quoted (numeral s4 i4 f4)) st =
        (.ok, { pid := pid, pcpu := Float64.ofRat (numeralValue s2 i2 f2), rss := rss,
                vss := vss }) ∧
      IsInt64Of (Float64.ofRat (numeralValue s1 i1 f1)) pid ∧
      IsInt64Of (Float64.ofRat (numeralValue s3 i3 f3)) rss ∧
      IsInt64Of (Float64.ofRat (numeralValue s4 i4 f4)) vss :=
  ⟨_, _, _,
    parseResult_quoted_fields (quoted d) _ _ _ _ _ _ _ _ st (comma_not_mem_quoted d hd)
      (parseFloat_numeral s1 i1 f1 h1 r1) (parseFloat_numeral s2 i2 f2 h2 r2)
      (parseFloat_numeral s3 i3 f3 h3 r3) (parseFloat_numeral s4 i4 f4 h4 r4),
    isInt64Of_toInt64 _, isInt64Of_toInt64 _, isInt64Of_toInt64 _⟩

theorem ofRat_5123_75 : Float64.ofRat 5123.75 = .fin 5123.75 :=
  ofRat_eq_of_cert 5123.75 5123.75 12 5633622702817280 (by norm_num)
    (by norm_num [overflowThreshold]) (by norm_num) (by norm_num) (by norm_num)
    (by rw [abs_lt]; constructor <;> norm_num) (by norm_num)

theorem ofRat_123_5 : Float64.ofRat 123.5 = .fin 123.5 :=
  ofRat_eq_of_cert 123.5 123.5 6 8690539905941504 (by norm_num)
    (by norm_num [overflowThreshold]) (by norm_num) (by norm_num) (by norm_num)
    (by rw [abs_lt]; constructor <;> norm_num) (by norm_num)

theorem ofRat_neg_7_25 : Float64.ofRat (-7.25) = .fin (-7.25) :=
  ofRat_neg_eq_of_cert 7.25 7.25 2 8162774324609024 (by norm_num)
    (by norm_num [overflowThreshold]) (by norm_num) (by norm_num) (by norm_num)
    (by rw [abs_lt]; constructor <;> norm_num) (by norm_num)

theorem numeralValue_5123 : numeralValue false "5123".toList "00000".toList = (5123 : Nat) := by
  have a : digitsVal "5123".toList = 5123 := by decide
  have b : digitsVal "00000".toList = 0 := by decide
  unfold numeralValue
  rw [a, b]
  norm_num

theorem numeralValue_1_234 : numeralValue false "1".toList "2340000".toList = 1.234 := by
  have a : digitsVal "1".toList = 1 := by decide
  have b : digitsVal "2340000".toList = 2340000 := by decide
  unfold numeralValue
  rw [a, b]
  norm_num

theorem numeralValue_123 : numeralValue false "123".toList "00000".toList = (123 : Nat) := by
  have a : digitsVal "123".toList = 123 := by decide
  have b : digitsVal "00000".toList = 0 := by decide
  unfold numeralValue
  rw [a, b]
  norm_num

theorem numeralValue_5123_75 : numeralValue false "5123".toList "75000".toList = 5123.75 := by
  have a : digitsVal "5123".toList = 5123 := by decide
  have b : digitsVal "75000".toList = 75000 := by decide
  unfold numeralValue
  rw [a, b]
  norm_num

theorem numeralValue_123_5 : numeralValue false "123".toList "50000".toList = 123.5 := by
  have a : digitsVal "123".toList = 123 := by decide
  have b : digitsVal "50000".toList = 50000 := by decide
  unfold numeralValue
  rw [a, b]
  norm_num

theorem numeralValue_neg_7_25 : numeralValue true "7".toList "25000".toList = -7.25 := by
  have a : digitsVal "7".toList = 7 := by decide
  have b : digitsVal "25000".toList = 25000 := by decide
  unfold numeralValue
  rw [a, b]
  norm_num

/-- Witness of the amended C10: the literal line of the specification yields pid 5123,
pcpu 1.234 (the nearest `float64`), rss 123 and vss 123; the line with the fields
5123.75000, 1.2340000, 123.50000 and -7.25000 yields pid 5123, rss 123 and vss -7, the
fractions being discarded toward zero. -/
theorem parseResult_five_quoted_numerals_witness :
    ',' ∉ "04/17/2016 15.38.00.016".toList ∧
    IsNumeral "5123".toList "00000".toList ∧ IsNumeral "1".toList "2340000".toList ∧
    IsNumeral "123".toList "00000".toList ∧ IsNumeral "5123".toList "75000".toList ∧
    IsNumeral "123".toList "50000".toList ∧ IsNumeral "7".toList "25000".toList ∧
    |numeralValue false "5123".toList "00000".toList| < overflowThreshold ∧
    |numeralValue false "1".toList "2340000".toList| < overflowThreshold ∧
    |numeralValue false "123".toList "00000".toList| < overflowThreshold ∧
    |numeralValue false "5123".toList "75000".toList| < overflowThreshold ∧
    |numeralValue false "123".toList "50000".toList| < overflowThreshold ∧
    |numeralValue true "7".toList "25000".toList| < overflowThreshold ∧
    parseResult
        "\"04/17/2016 15.38.00.016\",\"5123.00000\",\"1.2340000\",\"123.00000\",\"123.00000\"".toList
        ⟨0, 0, 0, 0⟩ =
      (.ok, { pid := 5123, pcpu := 1.234, rss := 123, vss := 123 }) ∧
    parseResult
        "\"04/17/2016 15.38.00.016\",\"5123.75000\",\"1.2340000\",\"123.50000\",\"-7.25000\"".toList
        ⟨0, 0, 0, 0⟩ =
      (.ok, { pid := 5123, pcpu := 1.234, rss := 123, vss := -7 }) := by
  have hd : ',' ∉ "04/17/2016 15.38.00.016".toList := by decide
  have n1 : IsNumeral "5123".toList "00000".toList := ⟨by decide, by decide, by decide⟩
  have n2 : IsNumeral "1".toList "2340000".toList := ⟨by decide, by decide, by decide⟩
  have n3 : IsNumeral "123".toList "00000".toList := ⟨by decide, by decide, by decide⟩
  have n4 : IsNumeral "5123".toList "75000".toList := ⟨by decide, by decide, by decide⟩
  have n5 : IsNumeral "123".toList "50000".toList := ⟨by decide, by decide, by decide⟩
  have n6 : IsNumeral "7".toList "25000".toList := ⟨by decide, by decide, by decide⟩
  have r1 : |numeralValue false "5123".toList "00000".toList| < overflowThreshold := by
    rw [numeralValue_5123]; norm_num [overflowThreshold, abs_of_nonneg]
  have r2 : |numeralValue false "1".toList "2340000".toList| < overflowThreshold := by
    rw [numeralValue_1_234]; norm_num [overflowThreshold, abs_of_nonneg]
  have r3 : |numeralValue false "123".toList "00000".toList| < overflowThreshold := by
    rw [numeralValue_123]; norm_num [overflowThreshold, abs_of_nonneg]
  have r4 : |numeralValue false "5123".toList "75000".toList| < overflowThreshold := by
    rw [numeralValue_5123_75]; norm_num [overflowThreshold, abs_of_nonneg]
  have r5 : |numeralValue false "123".toList "50000".toList| < overflowThreshold := by
    rw [numeralValue_123_5]; norm_num [overflowThreshold, abs_of_nonneg]
  have r6 : |numeralValue true "7".toList "25000".toList| < overflowThreshold := by
    rw [numeralValue_neg_7_25, abs_lt]; constructor <;> norm_num [overflowThreshold]
  refine ⟨hd, n1, n2, n3, n4, n5, n6, r1, r2, r3, r4, r5, r6, ?_, ?_⟩
  · obtain ⟨pid, rss, vss, e, hp, hr, hv⟩ :=
      parseResult_five_quoted_numerals "04/17/2016 15.38.00.016".toList false false false
        false "5123".toList "00000".toList "1".toList "2340000".toList "123".toList
        "00000".toList "123".toList "00000".toList ⟨0, 0, 0, 0⟩ hd n1 n2 n3 n3 r1 r2 r3 r3
    rw [numeralValue_5123] at hp
    rw [numeralValue_123] at hr hv
    rw [numeralValue_1_234] at e
    have e1 : pid = 5123 := eq_of_isInt64Of_natCast 5123 pid hp (by norm_num)
    have e2 : rss = 123 := eq_of_isInt64Of_natCast 123 rss hr (by norm_num)
    have e3 : vss = 123 := eq_of_isInt64Of_natCast 123 vss hv (by norm_num)
    rw [e1, e2, e3] at e
    exact e
  · obtain ⟨pid, rss, vss, e, hp, hr, hv⟩ :=
      parseResult_five_quoted_numerals "04/17/2016 15.38.00.016".toList false false false
        true "5123".toList "75000".toList "1".toList "2340000".toList "123".toList
        "50000".toList "7".toList "25000".toList ⟨0, 0, 0, 0⟩ hd n4 n2 n5 n6 r4 r2 r5 r6
    rw [numeralValue_5123_75, ofRat_5123_75] at hp
    rw [numeralValue_123_5, ofRat_123_5] at hr
    rw [numeralValue_neg_7_25, ofRat_neg_7_25] at hv
    rw [numeralValue_1_234] at e
    have e1 : pid = 5123 := eq_of_isInt64Of 5123.75 pid 5123 hp
      ⟨fun _ => by constructor <;> norm_num, fun h => absurd h (by norm_num)⟩
      (by norm_num) (by norm_num)
    have e2 : rss = 123 := eq_of_isInt64Of 123.5 rss 123 hr
      ⟨fun _ => by constructor <;> norm_num, fun h => absurd h (by norm_num)⟩
      (by norm_num) (by norm_num)
    have e3 : vss = -7 := eq_of_isInt64Of (-7.25) vss (-7) hv
      ⟨fun h => absurd h (by norm_num), fun _ => by constructor <;> norm_num⟩
      (by norm_num) (by norm_num)
    rw [e1, e2, e3] at e
    exact e

/-! ## getStatsForProcess on the sample answers -/

theorem getStatsForProcess_answerNotPresent : NotPresent answerNotPresent := by
  intro st
  have h : stringsContains answerNotPresent.out "The data is not valid".toList = true := by
    decide
  have he : answerNotPresent.err = some "exit status 1".toList := rfl
  unfold getStatsForProcess
  rw [he]
  simp only [h, if_true]

set_option maxRecDepth 4000 in
theorem getStatsForProcess_answer11 :
    ReportsReading (answerOf "11.000000" "0.500000" "100.000000" "200.000000")
      ⟨11, 0.5, 100, 200⟩ := by
  intro st
  have hs : stringsSplit (answerOf "11.000000" "0.500000" "100.000000" "200.000000").out
      "\r\n".toList =
      ["".toList, "\"(PDH-CSV 4.0)\",\"ID Process\",\"% Processor Time\"".toList,
       quoted "04/17/2016 15.38.00.016".toList ++ ',' :: quoted "11.000000".toList ++
         ',' :: quoted "0.500000".toList ++ ',' :: quoted "100.000000".toList ++
         ',' :: quoted "200.000000".toList,
       "Exiting, please wait...".toList, "".toList] := by
    decide
  have h1 : parseFloat "11.000000".toList = (11, none) :=
    parseFloat_of_readFloat _ ⟨false, false, 11000000, 6, 0⟩ _ (by decide) (by decide)
      (by norm_num [Parsed.value]) (by norm_num [overflowThreshold, abs_of_nonneg])
  have h2 : parseFloat "0.500000".toList = (0.5, none) :=
    parseFloat_of_readFloat _ ⟨false, false, 500000, 6, 0⟩ _ (by decide) (by decide)
      (by norm_num [Parsed.value]) (by norm_num [overflowThreshold, abs_of_nonneg])
  have h3 : parseFloat "100.000000".toList = (100, none) :=
    parseFloat_of_readFloat _ ⟨false, false, 100000000, 6, 0⟩ _ (by decide) (by decide)
      (by norm_num [Parsed.value]) (by norm_num [overflowThreshold, abs_of_nonneg])
  have h4 : parseFloat "200.000000".toList = (200, none) :=
    parseFloat_of_readFloat _ ⟨false, false, 200000000, 6, 0⟩ _ (by decide) (by decide)
      (by norm_num [Parsed.value]) (by norm_num [overflowThreshold, abs_of_nonneg])
  have t1 : (11 : Float64).toInt64 = 11 := toInt64_natCast 11 (by norm_num)
  have t3 : (100 : Float64).toInt64 = 100 := toInt64_natCast 100 (by norm_num)
  have t4 : (200 : Float64).toInt64 = 200 := toInt64_natCast 200 (by norm_num)
  have hr : (answerOf "11.000000" "0.500000" "100.000000" "200.000000").err = none := rfl
  unfold getStatsForProcess
  rw [hr]
  simp only [hs]
  have e := parseResult_quoted_fields (quoted "04/17/2016 15.38.00.016".toList)
    "11.000000".toList "0.500000".toList "100.000000".toList "200.000000".toList
    11 0.5 100 200 st (comma_not_mem_quoted _ (by decide)) h1 h2 h3 h4
  rw [t1, t3, t4] at e
  simpa using e

set_option maxRecDepth 4000 in
theorem getStatsForProcess_answer42 :
    ReportsReading (answerOf "42.000000" "2.500000" "300.000000" "400.000000")
      ⟨42, 2.5, 300, 400⟩ := by
  intro st
  have hs : stringsSplit (answerOf "42.000000" "2.500000" "300.000000" "400.000000").out
      "\r\n".toList =
      ["".toList, "\"(PDH-CSV 4.0)\",\"ID Process\",\"% Processor Time\"".toList,
       quoted "04/17/2016 15.38.00.016".toList ++ ',' :: quoted "42.000000".toList ++
         ',' :: quoted "2.500000".toList ++ ',' :: quoted "300.000000".toList ++
         ',' :: quoted "400.000000".toList,
       "Exiting, please wait...".toList, "".toList] := by
    decide
  have h1 : parseFloat "42.000000".toList = (42, none) :=
    parseFloat_of_readFloat _ ⟨false, false, 42000000, 6, 0⟩ _ (by decide) (by decide)
      (by norm_num [Parsed.value]) (by norm_num [overflowThreshold, abs_of_nonneg])
  have h2 : parseFloat "2.500000".toList = (2.5, none) :=
    parseFloat_of_readFloat _ ⟨false, false, 2500000, 6, 0⟩ _ (by decide) (by decide)
      (by norm_num [Parsed.value]) (by norm_num [overflowThreshold, abs_of_nonneg])
  have h3 : parseFloat "300.000000".toList = (300, none) :=
    parseFloat_of_readFloat _ ⟨false, false, 300000000, 6, 0⟩ _ (by decide) (by decide)
      (by norm_num [Parsed.value]) (by norm_num [overflowThreshold, abs_of_nonneg])
  have h4 : parseFloat "400.000000".toList = (400, none) :=
    parseFloat_of_readFloat _ ⟨false, false, 400000000, 6, 0⟩ _ (by decide) (by decide)
      (by norm_num [Parsed.value]) (by norm_num [overflowThreshold, abs_of_nonneg])
  have t1 : (42 : Float64).toInt64 = 42 := toInt64_natCast 42 (by norm_num)
  have t3 : (300 : Float64).toInt64 = 300 := toInt64_natCast 300 (by norm_num)
  have t4 : (400 : Float64).toInt64 = 400 := toInt64_natCast 400 (by norm_num)
  have hr : (answerOf "42.000000" "2.500000" "300.000000" "400.000000").err = none := rfl
  unfold getStatsForProcess
  rw [hr]
  simp only [hs]
  have e := parseResult_quoted_fields (quoted "04/17/2016 15.38.00.016".toList)
    "42.000000".toList "2.500000".toList "300.000000".toList "400.000000".toList
    42 2.5 300 400 st (comma_not_mem_quoted _ (by decide)) h1 h2 h3 h4
  rw [t1, t3, t4] at e
  simpa using e

theorem ReportsOther_of_reading (r : CmdResult) (rd : Stats) (p : Int)
    (h : ReportsReading r rd) (h0 : 0 ≤ rd.pid) (hne : rd.pid ≠ p) : ReportsOther r p := by
  intro st
  rw [h st]
  exact ⟨rfl, h0, hne⟩

/-! ## The resolution loop -/

theorem afterAll_nil (r : ProcUsageResult) : r.afterAll [] = r := by
  cases r
  rfl

theorem afterAll_after (name : GoString) (names : List GoString) (r : ProcUsageResult) :
    (r.afterAll names).after name = r.afterAll (name :: names) := by
  cases r
  rfl

theorem candidatesFrom_succ (i n : Nat) :
    candidatesFrom i (n + 1) = candidateName i :: candidatesFrom (i + 1) n := by
  unfold candidatesFrom
  rw [List.range_succ_eq_map]
  simp [List.map_map, Function.comp_def, Nat.add_comm, Nat.add_left_comm]

/-- One turn of the loop on a candidate that reports another existing pid. -/
theorem resolveLoop_step_other (tp : GoString → CmdResult) (p : Int) (fuel i : Nat)
    (st : Stats) (img : GoString) (hst : st.pid ≠ p)
    (h : ReportsOther (tp (candidateName i)) p) :
    resolveLoop tp p (fuel + 1) i st img =
      (resolveLoop tp p fuel (i + 1) (getStatsForProcess (tp (candidateName i)) st).2
        img).map (.after (candidateName i)) := by
  obtain ⟨h1, h2, h3⟩ := h st
  rcases hg : getStatsForProcess (tp (candidateName i)) st with ⟨o, st1⟩
  rw [hg] at h1 h2 h3
  simp only at h1 h2 h3
  subst h1
  rw [resolveLoop]
  simp only [hst, if_false, hg, not_lt.mpr h2, h3]

/-- The loop passes over `n` candidates that report other existing pids. -/
theorem resolveLoop_skip (tp : GoString → CmdResult) (p : Int) (img : GoString) (fuel : Nat) :
    ∀ (n i : Nat) (st : Stats), st.pid ≠ p →
      (∀ j, j < n → ReportsOther (tp (candidateName (i + j))) p) →
      ∃ st1 : Stats, st1.pid ≠ p ∧
        resolveLoop tp p (n + fuel) i st img =
          (resolveLoop tp p fuel (i + n) st1 img).map (.afterAll (candidatesFrom i n)) := by
  intro n
  induction n with
  | zero =>
    intro i st hst _
    refine ⟨st, hst, ?_⟩
    have : (fun r : ProcUsageResult => r.afterAll (candidatesFrom i 0)) = id := by
      funext r
      exact afterAll_nil r
    simp [this]
  | succ n ih =>
    intro i st hst h
    have h0 : ReportsOther (tp (candidateName i)) p := by
      have := h 0 (Nat.succ_pos n)
      simpa using this
    have hnext := (h0 st).2.2
    obtain ⟨st1, hst1, e⟩ := ih (i + 1) (getStatsForProcess (tp (candidateName i)) st).2 hnext
      (fun j hj => by
        have := h (j + 1) (Nat.succ_lt_succ hj)
        simpa [Nat.add_assoc, Nat.add_comm 1 j] using this)
    refine ⟨st1, hst1, ?_⟩
    have hf : n + 1 + fuel = (n + fuel) + 1 := by omega
    rw [hf, resolveLoop_step_other tp p (n + fuel) i st img hst h0, e, Option.map_map]
    have hi : i + 1 + n = i + (n + 1) := by omega
    rw [hi, candidatesFrom_succ]
    congr 1

/-- One turn of the loop on the candidate that reports the own pid. -/
theorem resolveLoop_step_found (tp : GoString → CmdResult) (p : Int) (fuel i : Nat)
    (st rd : Stats) (img : GoString) (hp : 0 ≤ p) (hst : st.pid ≠ p)
    (h : ReportsReading (tp (candidateName i)) rd) (hpid : rd.pid = p) :
    resolveLoop tp p (fuel + 1) i st img =
      some ⟨.ok, rd, candidateName i, [candidateName i]⟩ := by
  have h0 : ¬ rd.pid < 0 := by rw [hpid]; exact not_lt.mpr hp
  have h1 : rd.pid ≠ -1 := by
    intro e
    rw [e] at h0
    exact h0 (by decide)
  have h2 : ¬ p < 0 := not_lt.mpr hp
  rw [resolveLoop]
  simp only [hst, if_false, h st, h0, hpid, if_true]
  simp [afterLoop, ProcUsageResult.after, h1, h2]

/-- One turn of the loop on a candidate that is not present. -/
theorem resolveLoop_step_not_present (tp : GoString → CmdResult) (p : Int) (fuel i : Nat)
    (st : Stats) (img : GoString) (hst : st.pid ≠ p)
    (h : NotPresent (tp (candidateName i))) :
    resolveLoop tp p (fuel + 1) i st img =
      some ⟨.error errNoImage, { st with pid := -1 }, img, [candidateName i]⟩ := by
  rw [resolveLoop]
  simp only [hst, if_false, h st]
  simp [errNoImage]

/-- On candidates that all report other existing pids the loop is still running after
any number of turns. -/
theorem resolveLoop_never (tp : GoString → CmdResult) (p : Int) (img : GoString)
    (h : ∀ j, ReportsOther (tp (candidateName j)) p) :
    ∀ (fuel i : Nat) (st : Stats), st.pid ≠ p → resolveLoop tp p fuel i st img = none := by
  intro fuel
  induction fuel with
  | zero =>
    intro i st hst
    rw [resolveLoop]
    simp [hst]
  | succ fuel ih =>
    intro i st hst
    rw [resolveLoop_step_other tp p fuel i st img hst (h i),
      ih (i + 1) _ ((h i) st).2.2]
    rfl

theorem procUsage_no_cache (tp : GoString → CmdResult) (p : Int) (fuel : Nat) (pcpu : Float64)
    (rss vss : Int) :
    procUsage tp p fuel [] pcpu rss vss = resolveLoop tp p fuel 0 ⟨-1, pcpu, rss, vss⟩ [] := by
  simp [procUsage]

theorem neg_one_ne_of_nonneg (p : Int) (hp : 0 ≤ p) : (-1 : Int) ≠ p := by
  omega

/-- From an empty cache: the loop passes over `n` candidates reporting other existing
pids and finds candidate `n` not present. -/
theorem procUsage_not_present_at (tp : GoString → CmdResult) (p : Int) (n fuel : Nat)
    (pcpu : Float64) (rss vss : Int) (hp : 0 ≤ p)
    (hother : ∀ m, m < n → ReportsOther (tp (candidateName m)) p)
    (hn : NotPresent (tp (candidateName n))) (hfuel : n < fuel) :
    ∃ st : Stats, st.pid = -1 ∧
      procUsage tp p fuel [] pcpu rss vss =
        some ⟨.error errNoImage, st, [], candidatesFrom 0 (n + 1)⟩ := by
  obtain ⟨f, rfl⟩ : ∃ f, fuel = n + (f + 1) := ⟨fuel - n - 1, by omega⟩
  obtain ⟨st1, hst1, e⟩ := resolveLoop_skip tp p [] (f + 1) n 0 ⟨-1, pcpu, rss, vss⟩
    (neg_one_ne_of_nonneg p hp) (fun j hj => by simpa using hother j hj)
  refine ⟨{ st1 with pid := -1 }, rfl, ?_⟩
  rw [procUsage_no_cache, e, Nat.zero_add,
    resolveLoop_step_not_present tp p f n st1 [] hst1 hn]
  simp [ProcUsageResult.afterAll, candidatesFrom, List.range_succ]

/-- From an empty cache: the loop passes over `k` candidates reporting other existing
pids and finds that candidate `k` reports the own pid. -/
theorem procUsage_found_at (tp : GoString → CmdResult) (p : Int) (k fuel : Nat) (rd : Stats)
    (pcpu : Float64) (rss vss : Int) (hp : 0 ≤ p)
    (hother : ∀ i, i < k → ReportsOther (tp (candidateName i)) p)
    (hk : ReportsReading (tp (candidateName k)) rd) (hpid : rd.pid = p) (hfuel : k < fuel) :
    procUsage tp p fuel [] pcpu rss vss =
      some ⟨.ok, rd, candidateName k, candidatesFrom 0 (k + 1)⟩ := by
  obtain ⟨f, rfl⟩ : ∃ f, fuel = k + (f + 1) := ⟨fuel - k - 1, by omega⟩
  obtain ⟨st1, hst1, e⟩ := resolveLoop_skip tp p [] (f + 1) k 0 ⟨-1, pcpu, rss, vss⟩
    (neg_one_ne_of_nonneg p hp) (fun j hj => by simpa using hother j hj)
  rw [procUsage_no_cache, e, Nat.zero_add,
    resolveLoop_step_found tp p f k st1 rd [] hp hst1 hk hpid]
  simp [ProcUsageResult.afterAll, candidatesFrom, List.range_succ]

/-! ## The sample namespaces -/

theorem candidateName_zero : candidateName 0 = "gnatsd#0".toList := by decide

theorem candidateName_one : candidateName 1 = "gnatsd#1".toList := by decide

theorem candidateName_two : candidateName 2 = "gnatsd#2".toList := by decide

theorem namespace1142_zero :
    ReportsReading (namespace1142 (candidateName 0)) ⟨11, 0.5, 100, 200⟩ := by
  rw [candidateName_zero]
  exact getStatsForProcess_answer11

theorem namespace1142_one :
    ReportsReading (namespace1142 (candidateName 1)) ⟨42, 2.5, 300, 400⟩ := by
  rw [candidateName_one]
  exact getStatsForProcess_answer42

theorem namespace1142_two : NotPresent (namespace1142 (candidateName 2)) := by
  rw [candidateName_two]
  exact getStatsForProcess_answerNotPresent

theorem namespaceGap42_zero : NotPresent (namespaceGap42 (candidateName 0)) := by
  rw [candidateName_zero]
  exact getStatsForProcess_answerNotPresent

theorem namespaceGap42_one :
    ReportsReading (namespaceGap42 (candidateName 1)) ⟨42, 2.5, 300, 400⟩ := by
  rw [candidateName_one]
  exact getStatsForProcess_answer42

/-! ## procUsage -/

/-- C4: from an empty cached image name, when the candidates `gnatsd#0 .. gnatsd#(k-1)`
report other existing pids and `gnatsd#k` is the first to report the own pid `p`, with
readings `rd`, then `procUsage` (given more than `k` loop turns) returns no error after
exactly the `k + 1` queries `gnatsd#0, ..., gnatsd#k` in this order, with the readings of
`gnatsd#k` in the pointer targets and `gnatsd#k` in the cache. -/
theorem procUsage_resolves_first_match (typeperf : GoString → CmdResult) (p : Int)
    (k fuel : Nat) (rd : Stats) (pcpu : Float64) (rss vss : Int) (hp : 0 ≤ p)
    (hother : ∀ i, i < k → ReportsOther (typeperf (candidateName i)) p)
    (hk : ReportsReading (typeperf (candidateName k)) rd) (hpid : rd.pid = p)
    (hfuel : k < fuel) :
    procUsage typeperf p fuel [] pcpu rss vss =
      some { outcome := .ok, stats := rd, imageName := candidateName k,
             queries := candidatesFrom 0 (k + 1) } :=
  procUsage_found_at typeperf p k fuel rd pcpu rss vss hp hother hk hpid hfuel

/-- Witness of C4: in the namespace `gnatsd#0 -> 11`, `gnatsd#1 -> 42`, `gnatsd#2` not
present, with own pid 42, `procUsage` resolves to `gnatsd#1` after exactly the two
queries `gnatsd#0`, `gnatsd#1` and caches it. -/
theorem procUsage_resolves_first_match_witness :
    ReportsOther (namespace1142 (candidateName 0)) 42 ∧
    ReportsReading (namespace1142 (candidateName 1)) ⟨42, 2.5, 300, 400⟩ ∧
    NotPresent (namespace1142 (candidateName 2)) ∧
    procUsage namespace1142 42 2 [] 0 0 0 =
      some { outcome := .ok, stats := ⟨42, 2.5, 300, 400⟩, imageName := "gnatsd#1".toList,
             queries := ["gnatsd#0".toList, "gnatsd#1".toList] } := by
  have h0 : ReportsOther (namespace1142 (candidateName 0)) 42 :=
    ReportsOther_of_reading _ _ _ namespace1142_zero (by decide) (by decide)
  refine ⟨h0, namespace1142_one, namespace1142_two, ?_⟩
  have e := procUsage_resolves_first_match namespace1142 42 1 2 ⟨42, 2.5, 300, 400⟩ 0 0 0
    (by decide)
    (fun i hi => by
      have : i = 0 := by omega
      subst this
      exact h0)
    namespace1142_one rfl (by decide)
  have hc : candidatesFrom 0 (1 + 1) = ["gnatsd#0".toList, "gnatsd#1".toList] := by decide
  rw [e, candidateName_one, hc]

/-- C5, counterexample: in the namespace where `gnatsd#0` is not present and `gnatsd#1`
reports the own pid 42, `procUsage` does not go on to `gnatsd#1`: after the single query
`gnatsd#0` it returns the error "unable to find process image". -/
theorem procUsage_gap_not_skipped :
    NotPresent (namespaceGap42 (candidateName 0)) ∧
    ReportsReading (namespaceGap42 (candidateName 1)) ⟨42, 2.5, 300, 400⟩ ∧
    ∀ fuel, procUsage namespaceGap42 42 (fuel + 1) [] 0 0 0 =
      some { outcome := .error "unable to find process image".toList,
             stats := ⟨-1, 0, 0, 0⟩, imageName := [], queries := ["gnatsd#0".toList] } := by
  refine ⟨namespaceGap42_zero, namespaceGap42_one, ?_⟩
  intro fuel
  rw [procUsage_no_cache,
    resolveLoop_step_not_present namespaceGap42 42 fuel 0 _ [] (by decide) namespaceGap42_zero,
    candidateName_zero]
  rfl

/-- C5, amended: when candidate `i` reports the "no such instance" sentinel and the
candidates below `i` report other existing pids, `procUsage` (from an empty cache, given
more than `i` loop turns) stops at `i`: it returns the error "unable to find process
image" after exactly the queries `gnatsd#0, ..., gnatsd#i`, with pid -1 and an empty
cache, whatever the candidates after `i` report. -/
theorem procUsage_stops_at_sentinel (typeperf : GoString → CmdResult) (p : Int)
    (i fuel : Nat) (pcpu : Float64) (rss vss : Int) (hp : 0 ≤ p)
    (hother : ∀ m, m < i → ReportsOther (typeperf (candidateName m)) p)
    (hi : NotPresent (typeperf (candidateName i))) (hfuel : i < fuel) :
    ∃ st : Stats, st.pid = -1 ∧
      procUsage typeperf p fuel [] pcpu rss vss =
        some { outcome := .error "unable to find process image".toList, stats := st,
               imageName := [], queries := candidatesFrom 0 (i + 1) } :=
  procUsage_not_present_at typeperf p i fuel pcpu rss vss hp hother hi hfuel

/-- Witness of the amended C5: the namespace where `gnatsd#0` is not present and
`gnatsd#1` reports the own pid 42. -/
theorem procUsage_stops_at_sentinel_witness :
    NotPresent (namespaceGap42 (candidateName 0)) ∧
    ∃ st : Stats, st.pid = -1 ∧
      procUsage namespaceGap42 42 5 [] 0 0 0 =
        some { outcome := .error "unable to find process image".toList, stats := st,
               imageName := [], queries := candidatesFrom 0 1 } :=
  ⟨namespaceGap42_zero,
    procUsage_stops_at_sentinel namespaceGap42 42 0 5 0 0 0 (by decide)
      (fun m hm => absurd hm (Nat.not_lt_zero m)) namespaceGap42_zero (by decide)⟩

/-- C6, counterexample: in a namespace where every candidate exists with pid 11, with
own pid 42, the loop of `procUsage` is still running after any number of turns: there
is no bound on the number of queries. -/
theorem procUsage_unbounded :
    (∀ j, ReportsOther (namespaceAll11 (candidateName j)) 42) ∧
    ∀ fuel, procUsage namespaceAll11 42 fuel [] 0 0 0 = none := by
  have h : ∀ j, ReportsOther (namespaceAll11 (candidateName j)) 42 := fun j =>
    ReportsOther_of_reading _ _ _ getStatsForProcess_answer11 (by decide) (by decide)
  refine ⟨h, fun fuel => ?_⟩
  rw [procUsage_no_cache]
  exact resolveLoop_never namespaceAll11 42 [] h fuel 0 _ (by decide)

/-- C6, amended: identity resolution in `procUsage` has no attempt bound.  From an empty
cache it passes over the candidates that report other existing pids; when the first
candidate that does not is not present, at index `n`, it terminates (given more than `n`
loop turns) with the error "unable to find process image" after exactly `n + 1` queries;
when every candidate reports another existing pid it never terminates. -/
theorem procUsage_terminates_at_sentinel_only (typeperf : GoString → CmdResult) (p : Int)
    (pcpu : Float64) (rss vss : Int) (hp : 0 ≤ p) :
    (∀ n fuel : Nat, (∀ m, m < n → ReportsOther (typeperf (candidateName m)) p) →
      NotPresent (typeperf (candidateName n)) → n < fuel →
      ∃ st : Stats, st.pid = -1 ∧
        procUsage typeperf p fuel [] pcpu rss vss =
          some { outcome := .error "unable to find process image".toList, stats := st,
                 imageName := [], queries := candidatesFrom 0 (n + 1) }) ∧
    ((∀ m, ReportsOther (typeperf (candidateName m)) p) →
      ∀ fuel, procUsage typeperf p fuel [] pcpu rss vss = none) := by
  refine ⟨fun n fuel hother hn hfuel =>
    procUsage_not_present_at typeperf p n fuel pcpu rss vss hp hother hn hfuel, ?_⟩
  intro h fuel
  rw [procUsage_no_cache]
  exact resolveLoop_never typeperf p [] h fuel 0 _ (neg_one_ne_of_nonneg p hp)

/-- Witness of the amended C6: in the namespace `gnatsd#0 -> 11`, `gnatsd#1 -> 42`,
`gnatsd#2` not present, with own pid 99, `procUsage` fails with "unable to find process
image" after the three queries `gnatsd#0`, `gnatsd#1`, `gnatsd#2`. -/
theorem procUsage_terminates_at_sentinel_only_witness :
    ReportsOther (namespace1142 (candidateName 0)) 99 ∧
    ReportsOther (namespace1142 (candidateName 1)) 99 ∧
    NotPresent (namespace1142 (candidateName 2)) ∧
    ∃ st : Stats, st.pid = -1 ∧
      procUsage namespace1142 99 3 [] 0 0 0 =
        some { outcome := .error "unable to find process image".toList, stats := st,
               imageName := [],
               queries := ["gnatsd#0".toList, "gnatsd#1".toList, "gnatsd#2".toList] } := by
  have h0 : ReportsOther (namespace1142 (candidateName 0)) 99 :=
    ReportsOther_of_reading _ _ _ namespace1142_zero (by decide) (by decide)
  have h1 : ReportsOther (namespace1142 (candidateName 1)) 99 :=
    ReportsOther_of_reading _ _ _ namespace1142_one (by decide) (by decide)
  have h := (procUsage_terminates_at_sentinel_only namespace1142 99 0 0 0 (by decide)).1 2 3
    (fun m hm => by
      have hm2 : m = 0 ∨ m = 1 := by omega
      rcases hm2 with rfl | rfl
      · exact h0
      · exact h1)
    namespace1142_two (by decide)
  have hc : candidatesFrom 0 (2 + 1) =
      ["gnatsd#0".toList, "gnatsd#1".toList, "gnatsd#2".toList] := by decide
  rw [hc] at h
  exact ⟨h0, h1, namespace1142_two, h⟩

/-! ## parseResult on lines of fewer than five fields -/

theorem stringsSplit_four (f0 f1 f2 f3 : GoString) (h0 : ',' ∉ f0) (h1 : ',' ∉ f1)
    (h2 : ',' ∉ f2) (h3 : ',' ∉ f3) :
    stringsSplit (f0 ++ ',' :: f1 ++ ',' :: f2 ++ ',' :: f3) ",".toList = [f0, f1, f2, f3] := by
  have e : ",".toList = [','] := rfl
  simp only [stringsSplit, e, List.append_assoc, List.cons_append]
  rw [splitAux_comma_append _ _ h0, splitAux_comma_append _ _ h1,
    splitAux_comma_append _ _ h2, splitAux_comma_no_sep _ h3]

/-- A line that splits into fewer than four fields is rejected by the length check, and
the pointer targets stay as they were. -/
theorem parseResult_fewer_than_four (line : GoString) (st : Stats)
    (h : (stringsSplit line ",".toList).length < 4) :
    parseResult line st = (.error "Invalid result.".toList, st) := by
  unfold parseResult
  simp only [h, if_true]

/-- A line of exactly four fields, the last three being quoted decimal numerals, passes
the length check, has the three numerals converted and stored, and ends in the panic of
indexing `values[4]`. -/
theorem parseResult_four_quoted_fields (f0 n1 n2 n3 : GoString) (v1 v2 v3 : Float64) (st : Stats)
    (h0 : ',' ∉ f0) (h1 : parseFloat n1 = (v1, none)) (h2 : parseFloat n2 = (v2, none))
    (h3 : parseFloat n3 = (v3, none)) :
    parseResult (f0 ++ ',' :: quoted n1 ++ ',' :: quoted n2 ++ ',' :: quoted n3) st =
      (.panic, { pid := v1.toInt64, pcpu := v2, rss := v3.toInt64, vss := st.vss }) := by
  have c1 := parseFloat_chars n1 v1 h1
  have c2 := parseFloat_chars n2 v2 h2
  have c3 := parseFloat_chars n3 v3 h3
  unfold parseResult
  rw [stringsSplit_four f0 (quoted n1) (quoted n2) (quoted n3) h0
    (comma_not_mem_quoted _ c1.1) (comma_not_mem_quoted _ c2.1)
    (comma_not_mem_quoted _ c3.1)]
  simp [stringsTrim_quoted _ c1.2, stringsTrim_quoted _ c2.2, stringsTrim_quoted _ c3.2,
    h1, h2, h3]

/-- C11: the line `"04/17/2016 15.38.00.016","5123.00000","1.2340000","123.00000"` splits
on commas into four fields, fewer than five, yet `parseResult` does not return a parse
error: the check `len(values) < 4` lets it through, pid, pcpu and rss are stored, and the
call aborts with the panic of indexing the missing `values[4]`.  A line of three fields
is rejected with "Invalid result.". -/
theorem parseResult_four_fields_panics :
    stringsSplit
        "\"04/17/2016 15.38.00.016\",\"5123.00000\",\"1.2340000\",\"123.00000\"".toList
        ",".toList =
      ["\"04/17/2016 15.38.00.016\"".toList, "\"5123.00000\"".toList,
       "\"1.2340000\"".toList, "\"123.00000\"".toList] ∧
    parseResult
        "\"04/17/2016 15.38.00.016\",\"5123.00000\",\"1.2340000\",\"123.00000\"".toList
        ⟨0, 0, 0, 0⟩ =
      (.panic, { pid := 5123, pcpu := 1.234, rss := 123, vss := 0 }) ∧
    parseResult "\"04/17/2016 15.38.00.016\",\"5123.00000\",\"1.2340000\"".toList
        ⟨0, 0, 0, 0⟩ =
      (.error "Invalid result.".toList, ⟨0, 0, 0, 0⟩) := by
  have hd : ',' ∉ quoted "04/17/2016 15.38.00.016".toList := by decide
  have h1 : parseFloat "5123.00000".toList = (5123, none) :=
    parseFloat_of_readFloat _ ⟨false, false, 512300000, 5, 0⟩ _ (by decide) (by decide)
      (by norm_num [Parsed.value]) (by norm_num [overflowThreshold, abs_of_nonneg])
  have h2 : parseFloat "1.2340000".toList = (1.234, none) :=
    parseFloat_of_readFloat _ ⟨false, false, 12340000, 7, 0⟩ _ (by decide) (by decide)
      (by norm_num [Parsed.value]) (by norm_num [overflowThreshold, abs_of_nonneg])
  have h3 : parseFloat "123.00000".toList = (123, none) :=
    parseFloat_of_readFloat _ ⟨false, false, 12300000, 5, 0⟩ _ (by decide) (by decide)
      (by norm_num [Parsed.value]) (by norm_num [overflowThreshold, abs_of_nonneg])
  have t1 : (5123 : Float64).toInt64 = 5123 := toInt64_natCast 5123 (by norm_num)
  have t3 : (123 : Float64).toInt64 = 123 := toInt64_natCast 123 (by norm_num)
  refine ⟨by decide, ?_, ?_⟩
  · have e := parseResult_four_quoted_fields (quoted "04/17/2016 15.38.00.016".toList)
      "5123.00000".toList "1.2340000".toList "123.00000".toList 5123 1.234 123 ⟨0, 0, 0, 0⟩
      hd h1 h2 h3
    rw [t1, t3] at e
    exact e
  · exact parseResult_fewer_than_four _ _ (by decide)

end Typeperf
